import Mathlib

/-!
Shallow embedding of the session-watcher core of the `self-learning-agent`
repository: canonical adapter events (`src/types.ts`), the append-only
event/summary store (`src/store/index.ts`), the session-lifecycle state
machine (`src/watcher/index.ts`), the signal enricher
(`src/watcher/signals.ts`), the ignore matcher, and the Claude adapter's
offset-tracked polling and directory-name decoding (`src/adapter/claude.ts`).
JavaScript strings are modelled by `String`/`List Char`, `Date.now()`
timestamps by `Nat` milliseconds, the filesystem and git by explicit
environment functions, and JS `Map`s by insertion-ordered association lists.
-/

namespace SLAgent

/-- Intervention signal kinds (`types.ts`, `UserInterventionEvent.signal`). -/
inductive Signal
  | manual_edit
  | revert
  | fixup
  | long_pause
  | abort
  deriving DecidableEq, Repr

/-- Canonical adapter event, the tagged union `AdapterEvent` of `types.ts`. -/
inductive AdapterEvent
  | session_start (sessionId agent : String) (timestamp : Nat) (prompt : Option String)
  | session_end (sessionId : String) (timestamp : Nat) (exitCode : Option Int)
  | file_edit (sessionId : String) (timestamp : Nat) (path : String)
      (linesAdded linesRemoved : Nat) (tool : Option String)
  | command_run (sessionId : String) (timestamp : Nat) (command : String) (exitCode : Int)
  | test_result (sessionId : String) (timestamp : Nat) (framework : String)
      (passed failed skipped : Nat) (raw : Option String)
  | user_intervention (sessionId : String) (timestamp : Nat) (signal : Signal)
      (detail : Option String)
  deriving DecidableEq, Repr

/-- The `sessionId` field every event variant carries. -/
def AdapterEvent.sid : AdapterEvent → String
  | .session_start s _ _ _ => s
  | .session_end s _ _ => s
  | .file_edit s _ _ _ _ _ => s
  | .command_run s _ _ _ => s
  | .test_result s _ _ _ _ _ _ => s
  | .user_intervention s _ _ _ => s

/-- The `timestamp` field every event variant carries. -/
def AdapterEvent.ts : AdapterEvent → Nat
  | .session_start _ _ t _ => t
  | .session_end _ t _ => t
  | .file_edit _ t _ _ _ _ => t
  | .command_run _ t _ _ => t
  | .test_result _ t _ _ _ _ _ => t
  | .user_intervention _ t _ _ => t

/-- Overwrite the `sessionId` field (the watcher does `sig.sessionId = ...`). -/
def AdapterEvent.setSid : AdapterEvent → String → AdapterEvent
  | .session_start _ a t p, s => .session_start s a t p
  | .session_end _ t c, s => .session_end s t c
  | .file_edit _ t p la lr tool, s => .file_edit s t p la lr tool
  | .command_run _ t c ec, s => .command_run s t c ec
  | .test_result _ t fw p f sk r, s => .test_result s t fw p f sk r
  | .user_intervention _ t sg d, s => .user_intervention s t sg d

/-- Test for `event.type === 'test_result'`. -/
def AdapterEvent.isTestResult : AdapterEvent → Bool
  | .test_result _ _ _ _ _ _ _ => true
  | _ => false

/-- Test for `event.type === 'session_end'`. -/
def AdapterEvent.isSessionEnd : AdapterEvent → Bool
  | .session_end _ _ _ => true
  | _ => false

/-- Test for `event.type === 'file_edit'`. -/
def AdapterEvent.isFileEdit : AdapterEvent → Bool
  | .file_edit _ _ _ _ _ _ => true
  | _ => false

/-- Test for `event.type === 'user_intervention'`. -/
def AdapterEvent.isIntervention : AdapterEvent → Bool
  | .user_intervention _ _ _ _ => true
  | _ => false

/-- The `path` field of a `file_edit` event (the watcher reads it only after
checking the type; other variants give a dummy value). -/
def AdapterEvent.pathOf : AdapterEvent → String
  | .file_edit _ _ p _ _ _ => p
  | _ => ""

/-- The `failed` count of a `test_result` event; `0` on other variants. -/
def AdapterEvent.failedOf : AdapterEvent → Nat
  | .test_result _ _ _ _ f _ _ => f
  | _ => 0

/-- The `passed` count of a `test_result` event; `0` on other variants. -/
def AdapterEvent.passedOf : AdapterEvent → Nat
  | .test_result _ _ _ p _ _ _ => p
  | _ => 0

/-- Session outcome (`types.ts`); the constructor `partialOutcome` stands for
the string `'partial'` (`partial` is a reserved word in Lean). -/
inductive Outcome
  | success
  | failure
  | partialOutcome
  | unknown
  deriving DecidableEq, Repr

/-- Persisted session summary (`types.ts`, `SessionSummary`). -/
structure SessionSummary where
  id : String
  agent : String
  prompt : String
  projectCwd : Option String
  startedAt : Nat
  endedAt : Nat
  outcome : Outcome
  filesChanged : List String
  interventions : Nat
  analyzed : Bool
  deriving DecidableEq, Repr

/-- The lambda of `watcher/index.ts:194`:
`e.type === 'test_result' && e.failed > 0`. -/
def isFailingTest (e : AdapterEvent) : Bool :=
  e.isTestResult && decide (0 < e.failedOf)

/-- The lambda of `watcher/index.ts:195`:
`e.type === 'test_result' && e.passed > 0 && e.failed === 0`. -/
def isCleanPassTest (e : AdapterEvent) : Bool :=
  e.isTestResult && decide (0 < e.passedOf) && decide (e.failedOf = 0)

/-- Outcome computation of `LiveWatcher.sealSession` (`watcher/index.ts:193-200`):
filter the session's events to `test_result`, then
`partial` when a failing and a clean-passing test event both occur,
else `failure` on any failing event, else `success` on any clean pass,
else `unknown`. -/
def computeOutcome (events : List AdapterEvent) : Outcome :=
  let testEvents := events.filter AdapterEvent.isTestResult
  let hasFailures := testEvents.any isFailingTest
  let hasSuccesses := testEvents.any isCleanPassTest
  if hasFailures && hasSuccesses then Outcome.partialOutcome
  else if hasFailures then Outcome.failure
  else if hasSuccesses then Outcome.success
  else Outcome.unknown

/-- State of the on-disk store (`store/index.ts`): `events` maps a session id
to the line sequence of `events/<sessionId>.jsonl`, and `summaryLog` records
every `saveSessionSummary` write in order (the file `sessions/<id>.json` holds
the last write for `id`). -/
structure StoreState where
  events : String → List AdapterEvent
  summaryLog : List SessionSummary

/-- `Store.appendEvent` (`store/index.ts:22-28`): append one line to the
event file named by the event's own `sessionId`. -/
def Store.appendEvent (st : StoreState) (e : AdapterEvent) : StoreState :=
  { st with events := fun s => if s = e.sid then st.events s ++ [e] else st.events s }

/-- `Store.getSessionEvents` (`store/index.ts:30-41`): read back the event
file of one session, in file order. -/
def Store.getSessionEvents (st : StoreState) (sessionId : String) : List AdapterEvent :=
  st.events sessionId

/-- `Store.saveSessionSummary` (`store/index.ts:45-49`): write (overwrite)
`sessions/<id>.json`; modelled as appending to the write log. -/
def Store.saveSessionSummary (st : StoreState) (summary : SessionSummary) : StoreState :=
  { st with summaryLog := st.summaryLog ++ [summary] }

/-- `Store.getSessionSummary` (`store/index.ts:51-59`): the current content of
`sessions/<sessionId>.json` is the last write for that id, or `null`. -/
def Store.getSessionSummary (st : StoreState) (sessionId : String) : Option SessionSummary :=
  (st.summaryLog.filter (fun sm => sm.id == sessionId)).getLast?

/-- Split a character list at every occurrence of `sep`, keeping empty groups,
like JS `String.prototype.split` with a single-character separator. -/
def splitOnChar (sep : Char) : List Char → List (List Char)
  | [] => [[]]
  | c :: rest =>
    match splitOnChar sep rest with
    | [] => [[]]
    | grp :: gs => if c = sep then [] :: grp :: gs else (c :: grp) :: gs

/-- JS `s.split('\n')` over a `String`. -/
def splitLines (s : String) : List String :=
  (splitOnChar '\n' s.data).map String.mk

/-- JS `s.toLowerCase()` (ASCII case folding, which is all the watcher needs). -/
def lowerStr (s : String) : String :=
  String.mk (s.data.map Char.toLower)

/-- JS `s.trim()`: strip whitespace from both ends. -/
def trimStr (s : String) : String :=
  String.mk (((s.data.dropWhile Char.isWhitespace).reverse.dropWhile Char.isWhitespace).reverse)

/-- JS `s.startsWith(p)`. -/
def startsWithS (s p : String) : Bool :=
  p.data.isPrefixOf s.data

/-- JS `s.endsWith(p)`. -/
def endsWithS (s p : String) : Bool :=
  p.data.reverse.isPrefixOf s.data.reverse

/-- JS `hay.includes(needle)`: contiguous substring test. -/
def containsSub (hay needle : String) : Bool :=
  hay.data.tails.any (fun t => needle.data.isPrefixOf t)

/-- Git environment and filesystem modification times seen by the enricher:
`gitLog cwd` is the subject-line output of
`git log --oneline -20 --format="%s"` run in `cwd` (`none` when git is
unavailable or `cwd` is not a repository), and `mtime p` is the modification
time of path `p` in milliseconds (`none` when `stat` fails). -/
structure Env where
  gitLog : String → Option String
  mtime : String → Option Nat

/-- `SignalEnricher.checkGitSignals` (`watcher/signals.ts:9-47`): for each
line of the bounded recent-commit window, push a `revert` intervention when
the lowercased line contains `revert` (or starts with `revert `), and a
`fixup` intervention when it contains `fixup` (or starts with `fixup!`),
each carrying the trimmed line; no git output means no events. -/
def checkGitSignals (gitLog : Option String) (sessionId : String) (ts : Nat) :
    List AdapterEvent :=
  match gitLog with
  | none => []
  | some log =>
    (splitLines log).flatMap (fun line =>
      let lower := lowerStr line
      (if containsSub lower "revert" || startsWithS lower "revert " then
        [AdapterEvent.user_intervention sessionId ts Signal.revert (some (trimStr line))]
      else []) ++
      (if containsSub lower "fixup" || startsWithS lower "fixup!" then
        [AdapterEvent.user_intervention sessionId ts Signal.fixup (some (trimStr line))]
      else []))

/-- `SignalEnricher.detectManualEdits` (`watcher/signals.ts:49-71`): flag every
tracked file whose on-disk mtime is past the cutoff; stat failures are skipped. -/
def detectManualEdits (env : Env) (cwd : String) (agentFiles : List String)
    (afterTimestamp : Nat) : List AdapterEvent :=
  agentFiles.flatMap (fun file =>
    match env.mtime (cwd ++ "/" ++ file) with
    | none => []
    | some m =>
      if afterTimestamp < m then
        [AdapterEvent.user_intervention "" m Signal.manual_edit (some file)]
      else [])

/-- The 5-minute gap threshold of `detectTimingSignals`. -/
def GAP_MS : Nat := 5 * 60 * 1000

/-- `SignalEnricher.detectTimingSignals` (`watcher/signals.ts:93-112`): walk
adjacent event pairs in arrival order and flag gaps above `GAP_MS`, annotated
with the rounded gap in minutes. -/
def detectTimingSignals (events : List AdapterEvent) : List AdapterEvent :=
  (events.zip events.tail).flatMap (fun pc =>
    let prev := pc.1
    let curr := pc.2
    if prev.ts + GAP_MS < curr.ts then
      [AdapterEvent.user_intervention curr.sid curr.ts Signal.long_pause
        (some (toString ((curr.ts - prev.ts + 30000) / 60000) ++ "min gap"))]
    else [])

/-- Lookup in an insertion-ordered association list (JS `Map.get`). -/
def lookupA {α : Type} (m : List (String × α)) (k : String) : Option α :=
  (m.find? (fun kv => kv.1 == k)).map (fun kv => kv.2)

/-- JS `Map.set`: overwrite in place when the key exists, else append. -/
def setA {α : Type} (m : List (String × α)) (k : String) (v : α) : List (String × α) :=
  if m.any (fun kv => kv.1 == k) then
    m.map (fun kv => if kv.1 == k then (k, v) else kv)
  else m ++ [(k, v)]

/-- JS `Map.delete`. -/
def delA {α : Type} (m : List (String × α)) (k : String) : List (String × α) :=
  m.filter (fun kv => kv.1 != k)

/-- In-memory per-key session state (`watcher/index.ts`, `TrackedSession`). -/
structure TrackedSession where
  agent : String
  sessionId : String
  sessionPath : Option String
  eventCount : Nat
  startTime : Nat
  prompt : String
  files : List String
  active : Bool
  cwd : String
  deriving DecidableEq, Repr

/-- `LiveWatcher` state relevant to the lifecycle machine: the tracked-session
map, the previous-tick liveness map, and the store. -/
structure WatcherState where
  sessions : List (String × TrackedSession)
  lastActive : List (String × Bool)
  store : StoreState

/-- `LiveWatcher.sessionKey`: the `(adapterName, projectPath)` key. -/
def sessionKey (adapterName projectCwd : String) : String :=
  adapterName ++ ":" ++ projectCwd

/-- JS `[...new Set(xs)]`: deduplicate keeping first occurrences. -/
def dedupFirst (l : List String) : List String :=
  l.foldl (fun acc x => if acc.contains x then acc else acc ++ [x]) []

/-- `LiveWatcher.sealSession` (`watcher/index.ts:168-218`): for a tracked key,
read the session's stored events, append the enricher's git / manual-edit /
timing interventions, compute the outcome from the events read before the
signals were appended, persist one `SessionSummary` (ended now), and drop the
`TrackedSession`; an unknown key returns `null` and changes nothing. -/
def sealSession (env : Env) (now : Nat) (key : String) (ws : WatcherState) :
    Option SessionSummary × WatcherState :=
  match lookupA ws.sessions key with
  | none => (none, ws)
  | some session =>
    let events := Store.getSessionEvents ws.store session.sessionId
    let gitSignals := (checkGitSignals (env.gitLog session.cwd) session.sessionId now).map
      (fun e => e.setSid session.sessionId)
    let store1 := gitSignals.foldl Store.appendEvent ws.store
    let manualEdits := (detectManualEdits env session.cwd session.files (now - 60000)).map
      (fun e => e.setSid session.sessionId)
    let store2 := manualEdits.foldl Store.appendEvent store1
    let timingSignals := detectTimingSignals events
    let store3 := timingSignals.foldl Store.appendEvent store2
    let interventionCount := gitSignals.length + manualEdits.length + timingSignals.length
    let summary : SessionSummary :=
      { id := session.sessionId
        agent := session.agent
        prompt := session.prompt
        projectCwd := some session.cwd
        startedAt := session.startTime
        endedAt := now
        outcome := computeOutcome events
        filesChanged := dedupFirst session.files
        interventions := interventionCount
        analyzed := false }
    let store4 := Store.saveSessionSummary store3 summary
    (some summary, { ws with store := store4, sessions := delA ws.sessions key })

/-- One entry of `Adapter.getAllActiveSessions()` (`adapter/types.ts`). -/
structure GlobalSessionInfo where
  cwd : String
  sessionId : String
  sessionPath : String
  deriving DecidableEq, Repr

/-- A fresh `TrackedSession` as the watcher creates it. -/
def newTracked (agent sid : String) (spath : Option String) (startTime : Nat)
    (cwd : String) : TrackedSession :=
  { agent := agent, sessionId := sid, sessionPath := spath, eventCount := 0,
    startTime := startTime, prompt := "", files := [], active := true, cwd := cwd }

/-- The body of the first loop of `LiveWatcher.pollAdapters`
(`watcher/index.ts:233-299`): for one active-session report, run the
absent-to-active transition (sealing any stale entry, creating the tracked
session, appending `session_start`), or the same-key session-id change
(append `session_end` for the old id, seal, recreate, append
`session_start`), then mark the key active; the key is also collected into
the `activeKeys` set. -/
def processActive (env : Env) (now : Nat) (aname : String)
    (acc : WatcherState × List String) (gs : GlobalSessionInfo) :
    WatcherState × List String :=
  let ws := acc.1
  let key := sessionKey aname gs.cwd
  let activeKeys := acc.2 ++ [key]
  let wasActive := (lookupA ws.lastActive key).getD false
  let existing := lookupA ws.sessions key
  let ws :=
    if !wasActive then
      let ws := if (existing).isSome then (sealSession env now key ws).2 else ws
      let ws := { ws with sessions := setA ws.sessions key (newTracked aname gs.sessionId (some gs.sessionPath) now gs.cwd) }
      { ws with store := Store.appendEvent ws.store (.session_start gs.sessionId aname now none) }
    else ws
  let ws :=
    if wasActive then
      match existing with
      | some ex =>
        if gs.sessionId != ex.sessionId then
          let ws := { ws with store := Store.appendEvent ws.store (.session_end ex.sessionId now none) }
          let ws := (sealSession env now key ws).2
          let ws := { ws with sessions := setA ws.sessions key (newTracked aname gs.sessionId (some gs.sessionPath) now gs.cwd) }
          { ws with store := Store.appendEvent ws.store (.session_start gs.sessionId aname now none) }
        else ws
      | none => ws
    else ws
  ({ ws with lastActive := setA ws.lastActive key true }, activeKeys)

/-- The body of the offline-detection loop of `LiveWatcher.pollAdapters`
(`watcher/index.ts:301-319`): a tracked entry of this adapter whose key is
not in the current active set but was active last tick gets one
`session_end` append, is sealed, and is marked inactive. -/
def processOffline (env : Env) (now : Nat) (aname : String) (activeKeys : List String)
    (ws : WatcherState) (entry : String × TrackedSession) : WatcherState :=
  let key := entry.1
  let session := entry.2
  if session.agent != aname then ws
  else if activeKeys.contains key then ws
  else if !((lookupA ws.lastActive key).getD false) then ws
  else
    let ws := { ws with store := Store.appendEvent ws.store (.session_end session.sessionId now none) }
    let ws := (sealSession env now key ws).2
    { ws with lastActive := setA ws.lastActive key false }

/-- The body of the event-routing loop of `LiveWatcher.pollAdapters`
(`watcher/index.ts:322-352`): route one polled `(projectCwd, event)` pair
into the matching tracked session, auto-creating one (with the event's own
session id, or a fresh uuid when it is empty) if none exists; `file_edit`
paths accumulate, the event is stored under the tracked session's id, and
the event count grows. -/
def processEvent (aname : String) (fresh : Nat → String)
    (acc : WatcherState × Nat) (pe : String × AdapterEvent) : WatcherState × Nat :=
  let ws := acc.1
  let nextId := acc.2
  let projectCwd := pe.1
  let baseEvent := pe.2
  let key := sessionKey aname projectCwd
  match lookupA ws.sessions key with
  | some session =>
    let session :=
      if baseEvent.isFileEdit then { session with files := session.files ++ [baseEvent.pathOf] }
      else session
    let stored := baseEvent.setSid session.sessionId
    let session := { session with eventCount := session.eventCount + 1 }
    ({ ws with sessions := setA ws.sessions key session, store := Store.appendEvent ws.store stored }, nextId)
  | none =>
    let sidNext : String × Nat :=
      if baseEvent.sid != "" then (baseEvent.sid, nextId) else (fresh nextId, nextId + 1)
    let session := newTracked aname sidNext.1 none baseEvent.ts projectCwd
    let ws := { ws with sessions := setA ws.sessions key session, lastActive := setA ws.lastActive key true }
    let session :=
      if baseEvent.isFileEdit then { session with files := session.files ++ [baseEvent.pathOf] }
      else session
    let stored := baseEvent.setSid session.sessionId
    let session := { session with eventCount := session.eventCount + 1 }
    ({ ws with sessions := setA ws.sessions key session, store := Store.appendEvent ws.store stored }, sidNext.2)

/-- One tick of `LiveWatcher.pollAdapters` for a single adapter
(`watcher/index.ts:220-357`): drive liveness transitions from the reported
active sessions, sweep tracked sessions that went offline, then route the
freshly polled events; `fresh`/`nextId` model `randomUUID()`. -/
def pollTick (env : Env) (now : Nat) (aname : String) (fresh : Nat → String)
    (nextId : Nat) (activeSessions : List GlobalSessionInfo)
    (globalEvents : List (String × AdapterEvent)) (ws : WatcherState) :
    WatcherState × Nat :=
  let wsKeys := activeSessions.foldl (processActive env now aname) (ws, [])
  let ws1 := wsKeys.1
  let activeKeys := wsKeys.2
  let ws2 := ws1.sessions.foldl (processOffline env now aname activeKeys) ws1
  globalEvents.foldl (processEvent aname fresh) (ws2, nextId)

/-- Per-adapter-instance offset state (`adapter/claude.ts:10`,
`lastOffsets: Map<string, number>`). -/
structure AdapterState where
  lastOffsets : List (String × Nat)

/-- Node `basename(filename, '.jsonl')` for the bare file names the adapter
passes in. -/
def basenameJsonl (filename : String) : String :=
  if endsWithS filename ".jsonl" then String.mk (filename.data.take (filename.data.length - 6))
  else filename

/-- `ClaudeAdapter.readNewLines` (`adapter/claude.ts:304-323`): read the file,
return no events when nothing lies past the last-read offset, otherwise
decode only the content past the offset (skipping blank lines) and remember
the new end of file; `parseLine` stands for `parseClaudeLine`, taking the
session id and one line. -/
def readNewLines (parseLine : String → String → List AdapterEvent)
    (st : AdapterState) (filePath filename content : String) :
    List AdapterEvent × AdapterState :=
  let lastOffset := (lookupA st.lastOffsets filePath).getD 0
  if content.data.length ≤ lastOffset then ([], st)
  else
    let newContent := String.mk (content.data.drop lastOffset)
    let st := { st with lastOffsets := setA st.lastOffsets filePath content.data.length }
    let sessionId := basenameJsonl filename
    ((splitLines newContent).flatMap (fun line =>
      if trimStr line == "" then [] else parseLine sessionId line), st)

/-- One directory entry as `poll` sees it: name, mtime, and current text. -/
structure LogFile where
  name : String
  mtimeMs : Nat
  content : String

/-- The per-file step of `ClaudeAdapter.poll` (`adapter/claude.ts:138-144`):
skip a file not modified at or after `since`, otherwise accumulate its
`readNewLines` output. -/
def pollStep (parseLine : String → String → List AdapterEvent) (dirPath : String)
    (since : Nat) (acc : List AdapterEvent × AdapterState) (f : LogFile) :
    List AdapterEvent × AdapterState :=
  if f.mtimeMs < since then acc
  else
    let r := readNewLines parseLine acc.2 (dirPath ++ "/" ++ f.name) f.name f.content
    (acc.1 ++ r.1, r.2)

/-- `ClaudeAdapter.poll` over one project directory
(`adapter/claude.ts:128-151`): keep the `.jsonl` entries and fold the
per-file step over them. -/
def pollDir (parseLine : String → String → List AdapterEvent)
    (st : AdapterState) (dirPath : String) (files : List LogFile) (since : Nat) :
    List AdapterEvent × AdapterState :=
  (files.filter (fun f => endsWithS f.name ".jsonl")).foldl
    (pollStep parseLine dirPath since) ([], st)

/-- JS `parts.slice(i, j).join('-')`. -/
def joinDash : List String → String
  | [] => ""
  | [x] => x
  | x :: y :: rest => x ++ "-" ++ joinDash (y :: rest)

/-- The inner loop of `ClaudeAdapter.decodeDirName` (`adapter/claude.ts:172-183`):
try run lengths `k, k-1, …, 1` of filler-joined tokens and return the first
whose joined path exists on disk (`d` is the read-only `statSync` existence
probe). -/
def findRun (d : String → Bool) (path : String) (parts : List String) : Nat → Option Nat
  | 0 => none
  | k + 1 =>
    if d (path ++ "/" ++ joinDash (parts.take (k + 1))) then some (k + 1)
    else findRun d path parts k

/-- The outer loop of `ClaudeAdapter.decodeDirName` (`adapter/claude.ts:166-189`):
consume the longest existing filler-joined run, or fall back to a single
token, then continue on the suffix. Each step consumes at least one token,
so fuel `parts.length` (supplied by `decodeDirName`) is exact; see
`decodeGoF_fuel`. -/
def decodeGoF (d : String → Bool) : Nat → String → List String → String
  | _, path, [] => path
  | 0, path, _ :: _ => path
  | fuel + 1, path, x :: xs =>
    match findRun d path (x :: xs) (x :: xs).length with
    | some m => decodeGoF d fuel (path ++ "/" ++ joinDash ((x :: xs).take m)) ((x :: xs).drop m)
    | none => decodeGoF d fuel (path ++ "/" ++ x) xs

/-- `ClaudeAdapter.decodeDirName` (`adapter/claude.ts:159-192`): an encoded
name not starting with the filler maps filler to `/` wholesale; otherwise the
token sequence after the leading filler is decoded against the disk. -/
def decodeDirName (d : String → Bool) (encoded : String) : String :=
  if startsWithS encoded "-" then
    let parts := (splitOnChar '-' (encoded.data.drop 1)).map String.mk
    decodeGoF d parts.length "" parts
  else String.mk (encoded.data.map (fun c => if c = '-' then '/' else c))

/-- Compiled glob atom, one per regex fragment `globToRegex` emits. -/
inductive GlobPiece
  | anyDepthPrefix
  | anyText
  | anySeg
  | oneChar
  | lit (c : Char)
  deriving DecidableEq, Repr

/-- The scanner of `globToRegex` (`part_004:72-100`): `**/` becomes an
optional any-depth prefix, `**` any text, `*` a non-separator run, `?` one
non-separator character, and anything else (including the escaped `.`) a
literal. -/
def globPieces : List Char → List GlobPiece
  | [] => []
  | '*' :: '*' :: '/' :: rest => GlobPiece.anyDepthPrefix :: globPieces rest
  | '*' :: '*' :: rest => GlobPiece.anyText :: globPieces rest
  | '*' :: rest => GlobPiece.anySeg :: globPieces rest
  | '?' :: rest => GlobPiece.oneChar :: globPieces rest
  | c :: rest => GlobPiece.lit c :: globPieces rest

/-- The trailing `(?:/|$)` of both compiled regex forms. -/
def tailOk : List Char → Bool
  | [] => true
  | c :: _ => c == '/'

/-- Backtracking matcher for a compiled piece list followed by `(?:/|$)`,
with the regex semantics of the fragments `globToRegex` emits:
`(?:.+/)?` skips one-or-more characters up to a `/`, or nothing; `.*` any
run; `[^/]*` a separator-free run; `[^/]` one non-separator character.
Each recursive call drops one piece, so fuel `pieces.length + 1` (supplied
by `matchCore`) is exact. -/
def matchCoreF : Nat → List GlobPiece → List Char → Bool
  | 0, _, _ => false
  | _ + 1, [], s => tailOk s
  | fuel + 1, GlobPiece.anyDepthPrefix :: ps, s =>
    matchCoreF fuel ps s ||
      (List.range s.length).any (fun k =>
        decide (1 ≤ k) && (s.drop k).head? == some '/' && matchCoreF fuel ps (s.drop (k + 1)))
  | fuel + 1, GlobPiece.anyText :: ps, s =>
    (List.range (s.length + 1)).any (fun k => matchCoreF fuel ps (s.drop k))
  | fuel + 1, GlobPiece.anySeg :: ps, s =>
    (List.range (s.length + 1)).any (fun k =>
      (s.take k).all (fun c => c != '/') && matchCoreF fuel ps (s.drop k))
  | fuel + 1, GlobPiece.oneChar :: ps, s =>
    match s with
    | [] => false
    | c :: rest => c != '/' && matchCoreF fuel ps rest
  | fuel + 1, GlobPiece.lit c :: ps, s =>
    match s with
    | [] => false
    | c2 :: rest => c == c2 && matchCoreF fuel ps rest

/-- Match a piece list (then `(?:/|$)`) at the start of `s`. -/
def matchCore (pieces : List GlobPiece) (s : List Char) : Bool :=
  matchCoreF (pieces.length + 1) pieces s

/-- One compiled ignore rule (`part_004`, `IgnorePattern`); `dirOnly` is
parsed but, as in the source, never consulted by matching. -/
structure IgnorePattern where
  negated : Bool
  dirOnly : Bool
  anchored : Bool
  pieces : List GlobPiece
  deriving DecidableEq, Repr

/-- `parsePattern` (`part_004:57-70`): strip `!`, a trailing `/`, and a
leading `/`, recording each flag, then compile the rest. -/
def parsePattern (raw : String) : IgnorePattern :=
  let p0 := raw.data
  let negated := p0.head? == some '!'
  let p1 := if negated then p0.tail else p0
  let dirOnly := p1.getLast? == some '/'
  let p2 := if dirOnly then p1.dropLast else p1
  let anchored := p2.head? == some '/'
  let p3 := if anchored then p2.tail else p2
  { negated := negated, dirOnly := dirOnly, anchored := anchored, pieces := globPieces p3 }

/-- `matchPattern` (`part_004:108-110`): anchored rules compile to
`^R(?:/|$)` and must match from the start; unanchored rules compile to
`(?:^|/)R(?:/|$)` and may also start right after any `/`. -/
def matchPattern (path : List Char) (pat : IgnorePattern) : Bool :=
  if pat.anchored then matchCore pat.pieces path
  else
    matchCore pat.pieces path ||
      (List.range path.length).any (fun i =>
        (path.drop i).head? == some '/' && matchCore pat.pieces (path.drop (i + 1)))

/-- One step of the matcher returned by `createIgnoreMatcher`
(`part_004:33-47`): a matching negated rule clears the verdict, a matching
plain rule sets it, a non-matching rule leaves it. -/
def ignoreStep (path : List Char) (ignored : Bool) (pat : IgnorePattern) : Bool :=
  if pat.negated then (if matchPattern path pat then false else ignored)
  else (if matchPattern path pat then true else ignored)

/-- The full matcher loop: every rule is evaluated in declaration order. -/
def ignoreVerdict (patterns : List IgnorePattern) (path : String) : Bool :=
  patterns.foldl (ignoreStep path.data) false

/-- The built-in exclusion set (`part_004:4`). -/
def HARDCODED_IGNORES : List String :=
  [".slagent/", ".git/", "node_modules/", ".DS_Store"]

/-- `createIgnoreMatcher` (`part_004:6-48`): hardcoded rules first, then the
trimmed, non-blank, non-comment lines of the version-control exclude files
(given here as `gitignoreLines`), evaluated in declaration order. -/
def createIgnoreMatcher (gitignoreLines : List String) (relativePath : String) : Bool :=
  let lines := (gitignoreLines.map trimStr).filter
    (fun l => !(l == "") && !(startsWithS l "#"))
  ignoreVerdict ((HARDCODED_IGNORES ++ lines).map parsePattern) relativePath

/-- Spec wording: a `test_result` event with `failed > 0`. -/
def specIsFailing (e : AdapterEvent) : Prop :=
  e.isTestResult = true ∧ 0 < e.failedOf

/-- Spec wording: a `test_result` event with `passed > 0` and `failed = 0`. -/
def specIsCleanPass (e : AdapterEvent) : Prop :=
  e.isTestResult = true ∧ 0 < e.passedOf ∧ e.failedOf = 0

instance (e : AdapterEvent) : Decidable (specIsFailing e) := by
  unfold specIsFailing; infer_instance

instance (e : AdapterEvent) : Decidable (specIsCleanPass e) := by
  unfold specIsCleanPass; infer_instance

/-- Modelled from the spec wording of the outcome rule (for comparison with
`computeOutcome`): `partial` when a failing and another clean-passing
`test_result` event co-occur, else `failure` on any failing event, else
`success` on any clean pass, else `unknown`. -/
def outcomeSpec (events : List AdapterEvent) : Outcome :=
  if ∃ e ∈ events, ∃ e2 ∈ events, e ≠ e2 ∧ specIsFailing e ∧ specIsCleanPass e2 then
    Outcome.partialOutcome
  else if ∃ e ∈ events, specIsFailing e then Outcome.failure
  else if ∃ e ∈ events, specIsCleanPass e then Outcome.success
  else Outcome.unknown

theorem perm_any {α : Type} (p : α → Bool) {l1 l2 : List α} (h : l1.Perm l2) :
    l1.any p = l2.any p := by
  cases h1 : l1.any p with
  | true =>
    rw [List.any_eq_true] at h1
    obtain ⟨x, hx, hp⟩ := h1
    exact (List.any_eq_true.mpr ⟨x, h.mem_iff.mp hx, hp⟩).symm
  | false =>
    cases h2 : l2.any p with
    | true =>
      rw [List.any_eq_true] at h2
      obtain ⟨x, hx, hp⟩ := h2
      rw [List.any_eq_false] at h1
      exact absurd hp (by simpa using h1 x (h.mem_iff.mpr hx))
    | false => rfl

theorem any_filter_failing (events : List AdapterEvent) :
    (events.filter AdapterEvent.isTestResult).any isFailingTest = true ↔
      ∃ e ∈ events, specIsFailing e := by
  simp only [List.any_eq_true, List.mem_filter, isFailingTest, specIsFailing,
    Bool.and_eq_true, decide_eq_true_eq]
  constructor
  · rintro ⟨e, ⟨he, ht⟩, _, hf⟩
    exact ⟨e, he, ht, hf⟩
  · rintro ⟨e, he, ht, hf⟩
    exact ⟨e, ⟨he, ht⟩, ht, hf⟩

theorem any_filter_clean (events : List AdapterEvent) :
    (events.filter AdapterEvent.isTestResult).any isCleanPassTest = true ↔
      ∃ e ∈ events, specIsCleanPass e := by
  simp only [List.any_eq_true, List.mem_filter, isCleanPassTest, specIsCleanPass,
    Bool.and_eq_true, decide_eq_true_eq]
  constructor
  · rintro ⟨e, ⟨he, ht⟩, ⟨_, hp⟩, hf⟩
    exact ⟨e, he, ht, hp, hf⟩
  · rintro ⟨e, he, ht, hp, hf⟩
    exact ⟨e, ⟨he, ht⟩, ⟨ht, hp⟩, hf⟩

theorem pair_iff_both (events : List AdapterEvent) :
    (∃ e ∈ events, ∃ e2 ∈ events, e ≠ e2 ∧ specIsFailing e ∧ specIsCleanPass e2) ↔
      (∃ e ∈ events, specIsFailing e) ∧ (∃ e ∈ events, specIsCleanPass e) := by
  constructor
  · rintro ⟨e, he, e2, he2, _, hf, hc⟩
    exact ⟨⟨e, he, hf⟩, ⟨e2, he2, hc⟩⟩
  · rintro ⟨⟨e, he, hf⟩, ⟨e2, he2, hc⟩⟩
    refine ⟨e, he, e2, he2, ?_, hf, hc⟩
    intro hEq
    rw [hEq] at hf
    have ha := hf.2
    have hb := hc.2.2
    omega


/-- C1. The outcome `sealSession` records is a function of the session's
stored `test_result` events alone, is invariant under reordering of the
stored events, and agrees with the spec's rule: a failing event plus a
distinct clean-passing event give `partial`; otherwise any failing event
gives `failure`; otherwise any clean pass gives `success`; otherwise
`unknown`. -/
theorem C1_outcome_rule :
    (∀ l1 l2 : List AdapterEvent, l1.Perm l2 → computeOutcome l1 = computeOutcome l2) ∧
    (∀ events : List AdapterEvent,
      computeOutcome events = computeOutcome (events.filter AdapterEvent.isTestResult)) ∧
    (∀ events : List AdapterEvent, computeOutcome events = outcomeSpec events) := by
  refine ⟨?_, ?_, ?_⟩
  · intro l1 l2 h
    simp only [computeOutcome]
    have hf := h.filter AdapterEvent.isTestResult
    rw [perm_any isFailingTest hf, perm_any isCleanPassTest hf]
  · intro events
    simp only [computeOutcome]
    rw [List.filter_filter]
    simp only [Bool.and_self]
  · intro events
    simp only [computeOutcome, outcomeSpec]
    by_cases h1 : ∃ e ∈ events, specIsFailing e
    · have hb1 : (events.filter AdapterEvent.isTestResult).any isFailingTest = true :=
        (any_filter_failing events).mpr h1
      by_cases h2 : ∃ e ∈ events, specIsCleanPass e
      · have hb2 : (events.filter AdapterEvent.isTestResult).any isCleanPassTest = true :=
          (any_filter_clean events).mpr h2
        rw [if_pos ((pair_iff_both events).mpr ⟨h1, h2⟩)]
        simp [hb1, hb2]
      · have hb2 : (events.filter AdapterEvent.isTestResult).any isCleanPassTest = false := by
          rw [Bool.eq_false_iff]
          intro hc
          exact h2 ((any_filter_clean events).mp hc)
        rw [if_neg (fun hp => h2 ((pair_iff_both events).mp hp).2), if_pos h1]
        simp [hb1, hb2]
    · have hb1 : (events.filter AdapterEvent.isTestResult).any isFailingTest = false := by
        rw [Bool.eq_false_iff]
        intro hc
        exact h1 ((any_filter_failing events).mp hc)
      rw [if_neg (fun hp => h1 ((pair_iff_both events).mp hp).1), if_neg h1]
      by_cases h2 : ∃ e ∈ events, specIsCleanPass e
      · have hb2 : (events.filter AdapterEvent.isTestResult).any isCleanPassTest = true :=
          (any_filter_clean events).mpr h2
        rw [if_pos h2]
        simp [hb1, hb2]
      · have hb2 : (events.filter AdapterEvent.isTestResult).any isCleanPassTest = false := by
          rw [Bool.eq_false_iff]
          intro hc
          exact h2 ((any_filter_clean events).mp hc)
        rw [if_neg h2]
        simp [hb1, hb2]

/-- C1 witness: the reorder clause applied at a concrete two-event session. -/
theorem C1_outcome_rule_witness :
    computeOutcome
        [AdapterEvent.test_result "s" 0 "jest" 0 2 0 none,
         AdapterEvent.test_result "s" 1 "jest" 3 0 0 none] =
      computeOutcome
        [AdapterEvent.test_result "s" 1 "jest" 3 0 0 none,
         AdapterEvent.test_result "s" 0 "jest" 0 2 0 none] :=
  C1_outcome_rule.1 _ _
    (List.Perm.swap (AdapterEvent.test_result "s" 1 "jest" 3 0 0 none)
      (AdapterEvent.test_result "s" 0 "jest" 0 2 0 none) [])

/-- C3 counterexample: the claim's concrete pair — one event with 1 passed
and 5 failed, another with 5 passed and 1 failed — resolves to `failure`,
not `partial`: neither event is a clean pass (`passed > 0` and
`failed === 0`), so `hasSuccesses` is false in `sealSession`. -/
theorem C3_counterexample :
    computeOutcome
        [AdapterEvent.test_result "s" 0 "jest" 1 5 0 none,
         AdapterEvent.test_result "s" 1 "jest" 5 1 0 none] = Outcome.failure ∧
      Outcome.failure ≠ Outcome.partialOutcome := by
  constructor
  · decide
  · decide

/-- C3 as amended: a session whose `test_result` events include both a clean
pass (`passed > 0`, `failed = 0`) and any failure resolves to `partial`
regardless of counts or order; the claim's cited pair (1 passed + 5 failed
and 5 passed + 1 failed) contains no clean pass and resolves to `failure`;
a pair such as 5 passed + 0 failed with 1 passed + 5 failed resolves to
`partial` in either order. -/
theorem C3_amended_clean_pass_plus_failure :
    (∀ events : List AdapterEvent,
      (∃ e ∈ events, isCleanPassTest e = true) →
      (∃ e ∈ events, isFailingTest e = true) →
      computeOutcome events = Outcome.partialOutcome) ∧
    computeOutcome
        [AdapterEvent.test_result "s" 0 "jest" 5 0 0 none,
         AdapterEvent.test_result "s" 1 "jest" 1 5 0 none] = Outcome.partialOutcome ∧
    computeOutcome
        [AdapterEvent.test_result "s" 0 "jest" 1 5 0 none,
         AdapterEvent.test_result "s" 1 "jest" 5 0 0 none] = Outcome.partialOutcome := by
  refine ⟨?_, by decide, by decide⟩
  intro events ⟨e2, he2, hc⟩ ⟨e, he, hf⟩
  simp only [computeOutcome]
  have hf' : e.isTestResult = true ∧ 0 < e.failedOf := by
    simpa [isFailingTest] using hf
  have hc' : e2.isTestResult = true ∧ 0 < e2.passedOf ∧ e2.failedOf = 0 := by
    simpa [isCleanPassTest, and_assoc] using hc
  have ht : e.isTestResult = true := hf'.1
  have ht2 : e2.isTestResult = true := hc'.1
  have hb1 : (events.filter AdapterEvent.isTestResult).any isFailingTest = true :=
    List.any_eq_true.mpr ⟨e, List.mem_filter.mpr ⟨he, ht⟩, hf⟩
  have hb2 : (events.filter AdapterEvent.isTestResult).any isCleanPassTest = true :=
    List.any_eq_true.mpr ⟨e2, List.mem_filter.mpr ⟨he2, ht2⟩, hc⟩
  simp [hb1, hb2]

/-- C3 amended witness: the universal clause applied at the concrete
clean-pass-plus-failure pair. -/
theorem C3_amended_witness :
    computeOutcome
        [AdapterEvent.test_result "s" 0 "jest" 5 0 0 none,
         AdapterEvent.test_result "s" 1 "jest" 1 5 0 none] = Outcome.partialOutcome :=
  C3_amended_clean_pass_plus_failure.1 _
    ⟨AdapterEvent.test_result "s" 0 "jest" 5 0 0 none, by decide, by decide⟩
    ⟨AdapterEvent.test_result "s" 1 "jest" 1 5 0 none, by decide, by decide⟩

theorem getSessionEvents_foldl (es : List AdapterEvent) (st : StoreState) (s : String)
    (h : ∀ e ∈ es, e.sid = s) :
    Store.getSessionEvents (es.foldl Store.appendEvent st) s =
      Store.getSessionEvents st s ++ es := by
  induction es generalizing st with
  | nil => simp
  | cons e tl ih =>
    rw [List.foldl_cons, ih _ (fun x hx => h x (List.mem_cons_of_mem _ hx))]
    have he : e.sid = s := h e (List.mem_cons_self _ _)
    simp [Store.getSessionEvents, Store.appendEvent, he]

/-- C4. Events appended through `Store.appendEvent` for one session id read
back through `Store.getSessionEvents` as exactly the appended sequence: same
count, same order. -/
theorem C4_append_read_roundtrip (st : StoreState) (s : String) (es : List AdapterEvent)
    (h : ∀ e ∈ es, e.sid = s) (h0 : Store.getSessionEvents st s = []) :
    Store.getSessionEvents (es.foldl Store.appendEvent st) s = es := by
  rw [getSessionEvents_foldl es st s h, h0, List.nil_append]

/-- C4 witness: a concrete three-event append sequence reads back unchanged. -/
theorem C4_append_read_roundtrip_witness :
    Store.getSessionEvents
        ([AdapterEvent.session_start "s" "claude" 0 none,
          AdapterEvent.file_edit "s" 1 "a.ts" 2 0 none,
          AdapterEvent.session_end "s" 2 none].foldl Store.appendEvent
          ⟨fun _ => [], []⟩) "s" =
      [AdapterEvent.session_start "s" "claude" 0 none,
       AdapterEvent.file_edit "s" 1 "a.ts" 2 0 none,
       AdapterEvent.session_end "s" 2 none] :=
  C4_append_read_roundtrip ⟨fun _ => [], []⟩ "s" _ (by decide) rfl

/-- C10. `Store.appendEvent` touches only the event file named by the
appended event's own session id: any other session's events and summary read
back unchanged. -/
theorem C10_append_frame (st : StoreState) (e : AdapterEvent) (s : String)
    (h : s ≠ e.sid) :
    Store.getSessionEvents (Store.appendEvent st e) s = Store.getSessionEvents st s ∧
    Store.getSessionSummary (Store.appendEvent st e) s = Store.getSessionSummary st s := by
  constructor
  · simp [Store.getSessionEvents, Store.appendEvent, if_neg h]
  · rfl

/-- C10 witness: appending an event for session `a` leaves session `b`
untouched. -/
theorem C10_append_frame_witness :
    Store.getSessionEvents
        (Store.appendEvent ⟨fun _ => [], []⟩ (AdapterEvent.session_start "a" "claude" 0 none))
        "b" =
      Store.getSessionEvents (⟨fun _ => [], []⟩ : StoreState) "b" ∧
    Store.getSessionSummary
        (Store.appendEvent ⟨fun _ => [], []⟩ (AdapterEvent.session_start "a" "claude" 0 none))
        "b" =
      Store.getSessionSummary (⟨fun _ => [], []⟩ : StoreState) "b" :=
  C10_append_frame ⟨fun _ => [], []⟩ (AdapterEvent.session_start "a" "claude" 0 none) "b"
    (by decide)

theorem lookupA_delA_self {α : Type} (m : List (String × α)) (k : String) :
    lookupA (delA m k) k = none := by
  rw [lookupA]
  cases hf : (delA m k).find? (fun kv => kv.1 == k) with
  | none => rfl
  | some kv =>
    have h1 := List.find?_some hf
    have h2 := List.mem_filter.mp (List.mem_of_find?_eq_some hf)
    have h3 : (kv.1 != k) = true := h2.2
    simp only [bne_iff_ne, ne_eq] at h3
    simp only [beq_iff_eq] at h1
    exact absurd h1 h3

theorem summaryLog_foldl_append (es : List AdapterEvent) (st : StoreState) :
    (es.foldl Store.appendEvent st).summaryLog = st.summaryLog := by
  induction es generalizing st with
  | nil => rfl
  | cons e tl ih => rw [List.foldl_cons, ih]; rfl

theorem sealSession_not_tracked (env : Env) (now : Nat) (key : String) (ws : WatcherState)
    (h : lookupA ws.sessions key = none) : sealSession env now key ws = (none, ws) := by
  simp [sealSession, h]

theorem sealSession_sessions_delA (env : Env) (now : Nat) (key : String) (ws : WatcherState)
    (sess : TrackedSession) (h : lookupA ws.sessions key = some sess) :
    (sealSession env now key ws).2.sessions = delA ws.sessions key := by
  simp [sealSession, h]

theorem sealSession_summaryLog (env : Env) (now : Nat) (key : String) (ws : WatcherState)
    (sess : TrackedSession) (h : lookupA ws.sessions key = some sess) :
    ∃ sm : SessionSummary,
      (sealSession env now key ws).2.store.summaryLog = ws.store.summaryLog ++ [sm] ∧
      sm.id = sess.sessionId ∧ sm.startedAt = sess.startTime ∧ sm.endedAt = now := by
  simp only [sealSession, h]
  exact ⟨{ id := sess.sessionId, agent := sess.agent, prompt := sess.prompt,
           projectCwd := some sess.cwd, startedAt := sess.startTime, endedAt := now,
           outcome := computeOutcome (Store.getSessionEvents ws.store sess.sessionId),
           filesChanged := dedupFirst sess.files,
           interventions :=
             ((checkGitSignals (env.gitLog sess.cwd) sess.sessionId now).map
               (fun e => e.setSid sess.sessionId)).length +
             ((detectManualEdits env sess.cwd sess.files (now - 60000)).map
               (fun e => e.setSid sess.sessionId)).length +
             (detectTimingSignals (Store.getSessionEvents ws.store sess.sessionId)).length,
           analyzed := false },
         by simp [Store.saveSessionSummary, summaryLog_foldl_append], rfl, rfl, rfl⟩

/-- C9. Sealing a key with no tracked session returns `null` and leaves the
store untouched; hence sealing a key twice persists exactly one summary: the
first seal drops the tracked session and appends one summary write, and the
second call is a no-op. -/
theorem C9_seal_unknown_noop :
    (∀ (env : Env) (now : Nat) (key : String) (ws : WatcherState),
      lookupA ws.sessions key = none → sealSession env now key ws = (none, ws)) ∧
    (∀ (env : Env) (now now2 : Nat) (key : String) (ws : WatcherState),
      (lookupA ws.sessions key).isSome = true →
      sealSession env now2 key (sealSession env now key ws).2 =
        (none, (sealSession env now key ws).2) ∧
      (sealSession env now key ws).2.store.summaryLog.length =
        ws.store.summaryLog.length + 1) := by
  constructor
  · exact sealSession_not_tracked
  · intro env now now2 key ws h
    obtain ⟨sess, hs⟩ := Option.isSome_iff_exists.mp h
    constructor
    · refine sealSession_not_tracked env now2 key _ ?_
      rw [sealSession_sessions_delA env now key ws sess hs]
      exact lookupA_delA_self _ _
    · obtain ⟨sm, hlog, _, _, _⟩ := sealSession_summaryLog env now key ws sess hs
      rw [hlog, List.length_append]
      rfl

/-- State used by the C9 witness: one tracked session under key `claude:/p`. -/
def wsC9 : WatcherState :=
  { sessions := [("claude:/p", newTracked "claude" "sid" none 0 "/p")]
    lastActive := [("claude:/p", true)]
    store := ⟨fun _ => [], []⟩ }

/-- Environment with no git output and no stat results. -/
def envEmpty : Env := ⟨fun _ => none, fun _ => none⟩

/-- C9 witness: sealing `claude:/p` twice on the concrete state persists
exactly one summary and the second call is a no-op. -/
theorem C9_seal_unknown_noop_witness :
    sealSession envEmpty 1 "claude:/p" (sealSession envEmpty 0 "claude:/p" wsC9).2 =
      (none, (sealSession envEmpty 0 "claude:/p" wsC9).2) ∧
    (sealSession envEmpty 0 "claude:/p" wsC9).2.store.summaryLog.length =
      wsC9.store.summaryLog.length + 1 :=
  C9_seal_unknown_noop.2 envEmpty 0 1 "claude:/p" wsC9 (by decide)

theorem foldl_ignoreStep (chars : List Char) (patterns : List IgnorePattern) (init : Bool) :
    patterns.foldl (ignoreStep chars) init =
      match patterns.reverse.find? (fun p => matchPattern chars p) with
      | some p => !p.negated
      | none => init := by
  induction patterns generalizing init with
  | nil => rfl
  | cons p ps ih =>
    rw [List.foldl_cons, ih (ignoreStep chars init p), List.reverse_cons, List.find?_append]
    cases hf : ps.reverse.find? (fun q => matchPattern chars q) with
    | some q => simp [hf]
    | none =>
      cases hm : matchPattern chars p with
      | true => simp [hf, List.find?, hm, ignoreStep]
      | false => simp [hf, List.find?, hm, ignoreStep]

/-- C6. The ignore matcher evaluates every compiled rule in declaration order
and the verdict is that of the last matching rule (negated clears, plain
sets); concretely, rules `*.log` then `!keep.log` ignore `debug.log` but not
`keep.log`, and rule `build/` ignores `build/output.js`. -/
theorem C6_last_match_wins :
    (∀ (patterns : List IgnorePattern) (path : String),
      ignoreVerdict patterns path =
        match patterns.reverse.find? (fun p => matchPattern path.data p) with
        | some p => !p.negated
        | none => false) ∧
    createIgnoreMatcher ["*.log", "!keep.log"] "debug.log" = true ∧
    createIgnoreMatcher ["*.log", "!keep.log"] "keep.log" = false ∧
    createIgnoreMatcher ["build/"] "build/output.js" = true := by
  refine ⟨?_, by decide, by decide, by decide⟩
  intro patterns path
  unfold ignoreVerdict
  exact foldl_ignoreStep path.data patterns false

/-- C8 counterexample: a recent-commit window consisting of the squash-marked
message `squash! cleanup` yields no intervention event at all —
`checkGitSignals` tests only for `revert` and `fixup` substrings and never
for squash markers — while the claim requires one `fixup`-signal event for a
fixup/squash marker. -/
theorem C8_counterexample :
    checkGitSignals (some "squash! cleanup") "s" 0 = [] := by decide

theorem mem_ifSingle {e ev : AdapterEvent} {b : Bool} :
    e ∈ (if b = true then [ev] else []) ↔ b = true ∧ e = ev := by
  cases b <;> simp

/-- C8 as amended: for a closing session the commit-message signal scans the
recent-commit window and, per commit message, emits one `revert` intervention
when the lowercased message contains `revert` (or starts with `revert `) and
one `fixup` intervention when it contains `fixup` (or starts with `fixup!`),
each carrying the trimmed raw message; squash markers are not recognized;
every emitted event arises from such a message; and when git is unavailable
or the directory is not a repository no events are produced. -/
theorem C8_amended_git_signals :
    (∀ (sid : String) (ts : Nat), checkGitSignals none sid ts = []) ∧
    (∀ (log sid : String) (ts : Nat) (line : String), line ∈ splitLines log →
      ((containsSub (lowerStr line) "revert" || startsWithS (lowerStr line) "revert ") = true →
        AdapterEvent.user_intervention sid ts Signal.revert (some (trimStr line)) ∈
          checkGitSignals (some log) sid ts) ∧
      ((containsSub (lowerStr line) "fixup" || startsWithS (lowerStr line) "fixup!") = true →
        AdapterEvent.user_intervention sid ts Signal.fixup (some (trimStr line)) ∈
          checkGitSignals (some log) sid ts)) ∧
    (∀ (log sid : String) (ts : Nat) (e : AdapterEvent),
      e ∈ checkGitSignals (some log) sid ts →
      ∃ line ∈ splitLines log,
        ((containsSub (lowerStr line) "revert" || startsWithS (lowerStr line) "revert ") = true ∧
          e = AdapterEvent.user_intervention sid ts Signal.revert (some (trimStr line))) ∨
        ((containsSub (lowerStr line) "fixup" || startsWithS (lowerStr line) "fixup!") = true ∧
          e = AdapterEvent.user_intervention sid ts Signal.fixup (some (trimStr line)))) ∧
    checkGitSignals (some "Revert bad change\nfixup! tidy") "s" 7 =
      [AdapterEvent.user_intervention "s" 7 Signal.revert (some "Revert bad change"),
       AdapterEvent.user_intervention "s" 7 Signal.fixup (some "fixup! tidy")] := by
  refine ⟨fun sid ts => rfl, ?_, ?_, by decide⟩
  · intro log sid ts line hline
    constructor
    · intro hR
      refine List.mem_flatMap.mpr ⟨line, hline, ?_⟩
      simp only [hR, if_true, List.mem_append]
      exact Or.inl (List.mem_singleton.mpr rfl)
    · intro hF
      refine List.mem_flatMap.mpr ⟨line, hline, ?_⟩
      simp only [hF, if_true, List.mem_append]
      refine Or.inr ?_
      cases hR : (containsSub (lowerStr line) "revert" || startsWithS (lowerStr line) "revert ") <;>
        simp
  · intro log sid ts e he
    obtain ⟨line, hline, hmem⟩ := List.mem_flatMap.mp he
    refine ⟨line, hline, ?_⟩
    rw [List.mem_append] at hmem
    cases hmem with
    | inl h =>
      rw [mem_ifSingle] at h
      exact Or.inl ⟨h.1, h.2⟩
    | inr h =>
      rw [mem_ifSingle] at h
      exact Or.inr ⟨h.1, h.2⟩

/-- C8 amended witness: the emission clause applied to the one-line window
`Revert bad change`. -/
theorem C8_amended_git_signals_witness :
    AdapterEvent.user_intervention "s" 7 Signal.revert (some "Revert bad change") ∈
      checkGitSignals (some "Revert bad change") "s" 7 :=
  (C8_amended_git_signals.2.1 "Revert bad change" "s" 7 "Revert bad change"
    (by decide)).1 (by decide)

theorem findRun_bounds (d : String → Bool) (path : String) (parts : List String) :
    ∀ k m, findRun d path parts k = some m → 1 ≤ m ∧ m ≤ k := by
  intro k
  induction k with
  | zero => intro m h; cases h
  | succ k ih =>
    intro m h
    simp only [findRun] at h
    split at h
    · cases h
      omega
    · have := ih m h
      omega

theorem decodeGoF_fuel (d : String → Bool) :
    ∀ (fuel : Nat) (path : String) (rest : List String), rest.length ≤ fuel →
      decodeGoF d fuel path rest = decodeGoF d rest.length path rest := by
  intro fuel
  induction fuel using Nat.strong_induction_on with
  | _ fuel ih =>
    intro path rest hle
    match fuel, rest with
    | fuel, [] => cases fuel <;> rfl
    | 0, x :: xs =>
      simp only [List.length_cons] at hle
      omega
    | fuel + 1, x :: xs =>
      have hxs : xs.length ≤ fuel := by simpa using hle
      simp only [List.length_cons, decodeGoF]
      cases hf : findRun d path (x :: xs) (xs.length + 1) with
      | some m =>
        obtain ⟨hm1, hm2⟩ := findRun_bounds d path (x :: xs) (xs.length + 1) m hf
        have hl1 : ((x :: xs).drop m).length ≤ fuel := by
          simp only [List.length_drop, List.length_cons]
          omega
        have hl2 : ((x :: xs).drop m).length ≤ xs.length := by
          simp only [List.length_drop, List.length_cons]
          omega
        dsimp only
        rw [ih fuel (Nat.lt_succ_self _) _ _ hl1, ih xs.length (Nat.lt_succ_of_le hxs) _ _ hl2]
      | none =>
        dsimp only
        rw [ih fuel (Nat.lt_succ_self _) _ _ hxs, ih xs.length (Nat.lt_succ_of_le hxs) _ _ le_rfl]

/-- C7 counterexample: on a disk where the directory `/Users/dev/my-project`
exists but a directory literally named `Users-dev-my-project` also exists at
the root, decoding the encoded name `-Users-dev-my-project` returns
`/Users-dev-my-project` — the greedy longest-run probe finds it first — even
though `/Users/dev/my-project` exists on disk, contradicting the claim's
"whenever that directory exists on disk". -/
theorem C7_counterexample :
    decodeDirName
        (fun p =>
          ["/Users-dev-my-project", "/Users", "/Users/dev", "/Users/dev/my-project"].contains p)
        "-Users-dev-my-project" = "/Users-dev-my-project" ∧
    (fun p =>
        ["/Users-dev-my-project", "/Users", "/Users/dev", "/Users/dev/my-project"].contains p)
      "/Users/dev/my-project" = true ∧
    "/Users-dev-my-project" ≠ "/Users/dev/my-project" := by
  refine ⟨by decide, by decide, by decide⟩

/-- C7 as amended: decodeDirName tries, at each position, the longest run of
filler-joined tokens whose joined path exists on disk, shortening on each
miss and consuming a single token when no run matches; consequently the
encoded name of `/Users/dev/my-project` decodes to exactly
`/Users/dev/my-project` whenever that directory exists on disk and none of
the competing filler-joined candidates (`/Users-dev-my-project`,
`/Users-dev-my`, `/Users-dev`, `/Users/dev-my-project`, `/Users/dev-my`)
exists on disk. -/
theorem C7_amended_decode (d : String → Bool)
    (h1 : d "/Users/dev/my-project" = true)
    (h2 : d "/Users-dev-my-project" = false)
    (h3 : d "/Users-dev-my" = false)
    (h4 : d "/Users-dev" = false)
    (h5 : d "/Users/dev-my-project" = false)
    (h6 : d "/Users/dev-my" = false) :
    decodeDirName d "-Users-dev-my-project" = "/Users/dev/my-project" := by
  have e0 : decodeDirName d "-Users-dev-my-project" =
      decodeGoF d 4 "" ["Users", "dev", "my", "project"] := rfl
  have f1 : findRun d "" ["Users", "dev", "my", "project"] 4 =
      (if d "/Users" = true then some 1 else none) := by
    rw [show findRun d "" ["Users", "dev", "my", "project"] 4 =
        (if d "/Users-dev-my-project" = true then some 4 else
         if d "/Users-dev-my" = true then some 3 else
         if d "/Users-dev" = true then some 2 else
         if d "/Users" = true then some 1 else none) from rfl,
      h2, h3, h4]
    simp
  have s1 : decodeGoF d 4 "" ["Users", "dev", "my", "project"] =
      decodeGoF d 3 "/Users" ["dev", "my", "project"] := by
    rw [show decodeGoF d 4 "" ["Users", "dev", "my", "project"] =
        (match findRun d "" ["Users", "dev", "my", "project"] 4 with
         | some m =>
           decodeGoF d 3 ("" ++ "/" ++ joinDash (List.take m ["Users", "dev", "my", "project"]))
             (List.drop m ["Users", "dev", "my", "project"])
         | none => decodeGoF d 3 ("" ++ "/" ++ "Users") ["dev", "my", "project"]) from rfl,
      f1]
    by_cases hU : d "/Users" = true
    · rw [if_pos hU]
      rfl
    · rw [if_neg hU]
      rfl
  have f2 : findRun d "/Users" ["dev", "my", "project"] 3 =
      (if d "/Users/dev" = true then some 1 else none) := by
    rw [show findRun d "/Users" ["dev", "my", "project"] 3 =
        (if d "/Users/dev-my-project" = true then some 3 else
         if d "/Users/dev-my" = true then some 2 else
         if d "/Users/dev" = true then some 1 else none) from rfl,
      h5, h6]
    simp
  have s2 : decodeGoF d 3 "/Users" ["dev", "my", "project"] =
      decodeGoF d 2 "/Users/dev" ["my", "project"] := by
    rw [show decodeGoF d 3 "/Users" ["dev", "my", "project"] =
        (match findRun d "/Users" ["dev", "my", "project"] 3 with
         | some m =>
           decodeGoF d 2 ("/Users" ++ "/" ++ joinDash (List.take m ["dev", "my", "project"]))
             (List.drop m ["dev", "my", "project"])
         | none => decodeGoF d 2 ("/Users" ++ "/" ++ "dev") ["my", "project"]) from rfl,
      f2]
    by_cases hU : d "/Users/dev" = true
    · rw [if_pos hU]
      rfl
    · rw [if_neg hU]
      rfl
  have f3 : findRun d "/Users/dev" ["my", "project"] 2 = some 2 := by
    rw [show findRun d "/Users/dev" ["my", "project"] 2 =
        (if d "/Users/dev/my-project" = true then some 2 else
         if d "/Users/dev/my" = true then some 1 else none) from rfl,
      h1]
    rfl
  have s3 : decodeGoF d 2 "/Users/dev" ["my", "project"] = "/Users/dev/my-project" := by
    rw [show decodeGoF d 2 "/Users/dev" ["my", "project"] =
        (match findRun d "/Users/dev" ["my", "project"] 2 with
         | some m =>
           decodeGoF d 1 ("/Users/dev" ++ "/" ++ joinDash (List.take m ["my", "project"]))
             (List.drop m ["my", "project"])
         | none => decodeGoF d 1 ("/Users/dev" ++ "/" ++ "my") ["project"]) from rfl,
      f3]
    rfl
  rw [e0, s1, s2, s3]

/-- C7 amended witness: the decode succeeds on the disk holding exactly the
genuine ancestor chain. -/
theorem C7_amended_decode_witness :
    decodeDirName
        (fun p => ["/Users", "/Users/dev", "/Users/dev/my-project"].contains p)
        "-Users-dev-my-project" = "/Users/dev/my-project" :=
  C7_amended_decode
    (fun p => ["/Users", "/Users/dev", "/Users/dev/my-project"].contains p)
    (by decide) (by decide) (by decide) (by decide) (by decide) (by decide)

theorem lookupA_cons {α : Type} (kv : String × α) (m : List (String × α)) (k : String) :
    lookupA (kv :: m) k = if (kv.1 == k) = true then some kv.2 else lookupA m k := by
  by_cases h : (kv.1 == k) = true
  · rw [lookupA, List.find?_cons_of_pos (p := fun kv : String × α => kv.1 == k) _ h, if_pos h]
    rfl
  · rw [lookupA, List.find?_cons_of_neg (p := fun kv : String × α => kv.1 == k) _ (by simpa using h), if_neg h]
    rfl

theorem lookupA_setA_self {α : Type} (m : List (String × α)) (k : String) (v : α) :
    lookupA (setA m k v) k = some v := by
  rw [setA]
  by_cases hany : m.any (fun kv => kv.1 == k) = true
  · rw [if_pos hany]
    induction m with
    | nil => cases hany
    | cons kv tl ih =>
      rw [List.map_cons]
      by_cases hk : (kv.1 == k) = true
      · rw [if_pos hk, lookupA_cons]
        simp
      · rw [if_neg hk, lookupA_cons, if_neg hk]
        refine ih ?_
        rcases List.any_eq_true.mp hany with ⟨x, hx, hpx⟩
        cases List.mem_cons.mp hx with
        | inl he => exact absurd (he ▸ hpx) hk
        | inr ht => exact List.any_eq_true.mpr ⟨x, ht, hpx⟩
  · rw [if_neg hany]
    have hall : ∀ kv ∈ m, (kv.1 == k) = false := by
      intro kv hkv
      rw [Bool.eq_false_iff]
      intro hp
      exact hany (List.any_eq_true.mpr ⟨kv, hkv, hp⟩)
    induction m with
    | nil =>
      rw [List.nil_append, lookupA_cons]
      simp
    | cons kv tl ih =>
      rw [List.cons_append, lookupA_cons, if_neg]
      · refine ih ?_ ?_
        · intro hc
          exact hany (by simp [List.any_cons, hc])
        · intro x hx
          exact hall x (List.mem_cons_of_mem _ hx)
      · rw [hall kv (List.mem_cons_self _ _)]
        simp

theorem lookupA_setA_other {α : Type} (m : List (String × α)) (k k2 : String) (v : α)
    (h : k2 ≠ k) : lookupA (setA m k v) k2 = lookupA m k2 := by
  have hkk2 : ((k, v).1 == k2) = false := beq_eq_false_iff_ne.mpr (Ne.symm h)
  rw [setA]
  by_cases hany : m.any (fun kv => kv.1 == k) = true
  · rw [if_pos hany]
    clear hany
    induction m with
    | nil => rfl
    | cons kv tl ih =>
      rw [List.map_cons, lookupA_cons, lookupA_cons]
      by_cases hk : (kv.1 == k) = true
      · rw [if_pos hk]
        have h2 : (kv.1 == k2) = false := by
          rw [beq_eq_false_iff_ne]
          rw [beq_iff_eq] at hk
          rw [hk]
          exact Ne.symm h
        rw [hkk2, h2]
        simp only [Bool.false_eq_true, if_false]
        exact ih
      · rw [if_neg hk]
        by_cases hh : (kv.1 == k2) = true
        · rw [if_pos hh, if_pos hh]
        · rw [if_neg hh, if_neg hh]
          exact ih
  · rw [if_neg hany]
    rw [lookupA, List.find?_append]
    have hlast : List.find? (fun kv => kv.1 == k2) [(k, v)] = none := by
      rw [List.find?_cons_of_neg (p := fun kv : String × α => kv.1 == k2) _
        (by simp [hkk2] : ¬ ((fun kv : String × α => kv.1 == k2) (k, v) = true))]
      rfl
    rw [hlast, Option.or_none]
    rfl

/-- The remembered offset for a file path, `0` when absent (`?? 0`). -/
def offAt (st : AdapterState) (p : String) : Nat :=
  (lookupA st.lastOffsets p).getD 0

theorem readNewLines_skip (parseLine : String → String → List AdapterEvent)
    (st : AdapterState) (fp fn content : String)
    (h : content.data.length ≤ offAt st fp) :
    readNewLines parseLine st fp fn content = ([], st) := by
  have h2 : content.data.length ≤ (lookupA st.lastOffsets fp).getD 0 := h
  simp only [readNewLines]
  rw [if_pos h2]

theorem readNewLines_offAt_ge (parseLine : String → String → List AdapterEvent)
    (st : AdapterState) (fp fn content : String) :
    content.data.length ≤ offAt ((readNewLines parseLine st fp fn content).2) fp := by
  simp only [readNewLines]
  by_cases h : content.data.length ≤ (lookupA st.lastOffsets fp).getD 0
  · rw [if_pos h]
    exact h
  · rw [if_neg h]
    dsimp only
    simp only [offAt]
    rw [lookupA_setA_self]
    simp

theorem readNewLines_offAt_mono (parseLine : String → String → List AdapterEvent)
    (st : AdapterState) (fp fn content p : String) :
    offAt st p ≤ offAt ((readNewLines parseLine st fp fn content).2) p := by
  simp only [readNewLines]
  by_cases h : content.data.length ≤ (lookupA st.lastOffsets fp).getD 0
  · rw [if_pos h]
  · rw [if_neg h]
    dsimp only
    by_cases hp : p = fp
    · subst hp
      simp only [offAt]
      rw [lookupA_setA_self]
      simp only [Option.getD_some]
      omega
    · simp only [offAt]
      rw [lookupA_setA_other _ _ _ _ hp]

theorem foldl_pollStep_offAt_mono (parseLine : String → String → List AdapterEvent)
    (dirPath : String) (since : Nat) :
    ∀ (files : List LogFile) (acc : List AdapterEvent × AdapterState) (p : String),
      offAt acc.2 p ≤ offAt ((files.foldl (pollStep parseLine dirPath since) acc)).2 p := by
  intro files
  induction files with
  | nil => intro acc p; exact le_rfl
  | cons f fs ih =>
    intro acc p
    rw [List.foldl_cons]
    refine le_trans ?_ (ih _ p)
    rw [pollStep]
    by_cases hm : f.mtimeMs < since
    · rw [if_pos hm]
    · rw [if_neg hm]
      dsimp only
      exact readNewLines_offAt_mono parseLine acc.2 _ f.name f.content p

theorem foldl_pollStep_post (parseLine : String → String → List AdapterEvent)
    (dirPath : String) (since : Nat) :
    ∀ (files : List LogFile) (acc : List AdapterEvent × AdapterState),
      ∀ f ∈ files, ¬ f.mtimeMs < since →
      f.content.data.length ≤
        offAt ((files.foldl (pollStep parseLine dirPath since) acc)).2
          (dirPath ++ "/" ++ f.name) := by
  intro files
  induction files with
  | nil =>
    intro acc f hf
    cases hf
  | cons g fs ih =>
    intro acc f hf hmt
    rw [List.foldl_cons]
    cases List.mem_cons.mp hf with
    | inl he =>
      subst he
      refine le_trans ?_ (foldl_pollStep_offAt_mono parseLine dirPath since fs _ _)
      rw [pollStep, if_neg hmt]
      dsimp only
      exact readNewLines_offAt_ge parseLine acc.2 _ f.name f.content
    | inr ht => exact ih _ f ht hmt

theorem foldl_pollStep_idle (parseLine : String → String → List AdapterEvent)
    (dirPath : String) (since : Nat) :
    ∀ (files : List LogFile) (acc : List AdapterEvent × AdapterState),
      (∀ f ∈ files, ¬ f.mtimeMs < since →
        f.content.data.length ≤ offAt acc.2 (dirPath ++ "/" ++ f.name)) →
      files.foldl (pollStep parseLine dirPath since) acc = acc := by
  intro files
  induction files with
  | nil => intro acc h; rfl
  | cons f fs ih =>
    intro acc h
    rw [List.foldl_cons]
    have hstep : pollStep parseLine dirPath since acc f = acc := by
      rw [pollStep]
      by_cases hm : f.mtimeMs < since
      · rw [if_pos hm]
      · rw [if_neg hm]
        rw [readNewLines_skip parseLine acc.2 _ f.name f.content
          (h f (List.mem_cons_self _ _) hm)]
        simp
    rw [hstep]
    exact ih acc (fun g hg hgm => h g (List.mem_cons_of_mem _ hg) hgm)

/-- C5. Within one adapter instance, a second `poll` over the same unchanged
log units yields zero new events: the first poll leaves every consumed
unit's last-read offset at the end of its content, so the second poll
decodes nothing. -/
theorem C5_repoll_no_new_events (parseLine : String → String → List AdapterEvent)
    (st : AdapterState) (dirPath : String) (files : List LogFile) (since : Nat) :
    (pollDir parseLine (pollDir parseLine st dirPath files since).2
      dirPath files since).1 = [] := by
  simp only [pollDir]
  rw [foldl_pollStep_idle parseLine dirPath since
    (files.filter (fun f => endsWithS f.name ".jsonl"))
    ([], ((files.filter (fun f => endsWithS f.name ".jsonl")).foldl
      (pollStep parseLine dirPath since) ([], st)).2)
    (fun f hf hm => foldl_pollStep_post parseLine dirPath since
      (files.filter (fun f => endsWithS f.name ".jsonl")) ([], st) f hf hm)]

/-- Count of `session_end` lines in one session's event file. -/
def endCount (st : StoreState) (sid : String) : Nat :=
  ((st.events sid).filter AdapterEvent.isSessionEnd).length

/-- The summary writes recorded for one session id, in write order. -/
def summariesFor (st : StoreState) (sid : String) : List SessionSummary :=
  st.summaryLog.filter (fun sm => sm.id == sid)

theorem setSid_isSessionEnd (e : AdapterEvent) (s : String) :
    (e.setSid s).isSessionEnd = e.isSessionEnd := by
  cases e <;> rfl

theorem setSid_sid (e : AdapterEvent) (s : String) : (e.setSid s).sid = s := by
  cases e <;> rfl

theorem endCount_append_not_end (st : StoreState) (e : AdapterEvent) (target : String)
    (h : e.isSessionEnd = false) :
    endCount (Store.appendEvent st e) target = endCount st target := by
  unfold endCount Store.appendEvent
  dsimp only
  by_cases hs : target = e.sid
  · rw [if_pos hs, List.filter_append]
    simp [h]
  · rw [if_neg hs]

theorem endCount_append_other (st : StoreState) (e : AdapterEvent) (target : String)
    (h : e.sid ≠ target) :
    endCount (Store.appendEvent st e) target = endCount st target := by
  unfold endCount Store.appendEvent
  dsimp only
  rw [if_neg (fun hh => h hh.symm)]

theorem endCount_append_end_self (st : StoreState) (e : AdapterEvent) (target : String)
    (hend : e.isSessionEnd = true) (hsid : e.sid = target) :
    endCount (Store.appendEvent st e) target = endCount st target + 1 := by
  unfold endCount Store.appendEvent
  dsimp only
  rw [if_pos hsid.symm, List.filter_append]
  simp [hend]

theorem endCount_save (st : StoreState) (sm : SessionSummary) (target : String) :
    endCount (Store.saveSessionSummary st sm) target = endCount st target := rfl

theorem summariesFor_append (st : StoreState) (e : AdapterEvent) (target : String) :
    summariesFor (Store.appendEvent st e) target = summariesFor st target := rfl

theorem endCount_foldl_not_end (es : List AdapterEvent) (st : StoreState) (target : String)
    (h : ∀ e ∈ es, e.isSessionEnd = false) :
    endCount (es.foldl Store.appendEvent st) target = endCount st target := by
  induction es generalizing st with
  | nil => rfl
  | cons e tl ih =>
    rw [List.foldl_cons, ih _ (fun x hx => h x (List.mem_cons_of_mem _ hx)),
      endCount_append_not_end st e target (h e (List.mem_cons_self _ _))]

theorem summariesFor_foldl_append (es : List AdapterEvent) (st : StoreState) (target : String) :
    summariesFor (es.foldl Store.appendEvent st) target = summariesFor st target := by
  unfold summariesFor
  rw [summaryLog_foldl_append]

theorem checkGitSignals_not_end (g : Option String) (sid : String) (ts : Nat) :
    ∀ e ∈ checkGitSignals g sid ts, e.isSessionEnd = false := by
  intro e he
  cases g with
  | none => cases he
  | some log =>
    obtain ⟨line, hline, hmem⟩ := List.mem_flatMap.mp he
    rw [List.mem_append] at hmem
    cases hmem with
    | inl h =>
      rw [mem_ifSingle] at h
      rw [h.2]
      rfl
    | inr h =>
      rw [mem_ifSingle] at h
      rw [h.2]
      rfl

theorem detectManualEdits_not_end (env : Env) (cwd : String) (files : List String)
    (cutoff : Nat) :
    ∀ e ∈ detectManualEdits env cwd files cutoff, e.isSessionEnd = false := by
  intro e he
  obtain ⟨f, hf, hmem⟩ := List.mem_flatMap.mp he
  cases hm : env.mtime (cwd ++ "/" ++ f) with
  | none =>
    rw [hm] at hmem
    cases hmem
  | some m =>
    rw [hm] at hmem
    dsimp only at hmem
    split at hmem
    · rw [List.mem_singleton.mp hmem]
      rfl
    · cases hmem

theorem detectTimingSignals_not_end (events : List AdapterEvent) :
    ∀ e ∈ detectTimingSignals events, e.isSessionEnd = false := by
  intro e he
  obtain ⟨pc, hpc, hmem⟩ := List.mem_flatMap.mp he
  dsimp only at hmem
  split at hmem
  · rw [List.mem_singleton.mp hmem]
    rfl
  · cases hmem

theorem lookupA_mem {α : Type} (m : List (String × α)) (k : String) (v : α)
    (h : lookupA m k = some v) : (k, v) ∈ m := by
  rw [lookupA] at h
  cases hf : m.find? (fun kv => kv.1 == k) with
  | none =>
    rw [hf] at h
    cases h
  | some kv =>
    rw [hf] at h
    have h1 := List.find?_some (p := fun kv : String × α => kv.1 == k) hf
    have h2 := List.mem_of_find?_eq_some hf
    have hv : kv.2 = v := by simpa using h
    have hk : kv.1 = k := by simpa using h1
    have : kv = (k, v) := by
      cases kv
      simp only at hv hk
      rw [hv, hk]
    rw [← this]
    exact h2

theorem mem_delA {α : Type} (m : List (String × α)) (k : String) :
    ∀ kv ∈ delA m k, kv ∈ m ∧ kv.1 ≠ k := by
  intro kv hkv
  have h := List.mem_filter.mp hkv
  exact ⟨h.1, by simpa using h.2⟩

theorem lookupA_delA_other {α : Type} (m : List (String × α)) (k k2 : String)
    (h : k2 ≠ k) : lookupA (delA m k) k2 = lookupA m k2 := by
  induction m with
  | nil => rfl
  | cons kv tl ih =>
    rw [delA, List.filter_cons]
    by_cases hk : (kv.1 != k) = true
    · rw [if_pos hk, lookupA_cons, lookupA_cons]
      by_cases hk2 : (kv.1 == k2) = true
      · rw [if_pos hk2, if_pos hk2]
      · rw [if_neg hk2, if_neg hk2]
        exact ih
    · rw [if_neg hk]
      have hkv : kv.1 = k := by simpa using hk
      have hcond : ¬ ((kv.1 == k2) = true) := by
        rw [beq_iff_eq, hkv]
        exact fun hc => h hc.symm
      rw [lookupA_cons, if_neg hcond]
      exact ih

theorem mem_setA {α : Type} (m : List (String × α)) (k : String) (v : α) :
    ∀ kv ∈ setA m k v, kv ∈ m ∨ kv = (k, v) := by
  intro kv hkv
  rw [setA] at hkv
  split at hkv
  · obtain ⟨x, hx, hfx⟩ := List.mem_map.mp hkv
    by_cases hxk : (x.1 == k) = true
    · right
      rw [← hfx, if_pos hxk]
    · left
      rw [← hfx, if_neg hxk]
      exact hx
  · rw [List.mem_append] at hkv
    cases hkv with
    | inl hh => exact Or.inl hh
    | inr hh => exact Or.inr (List.mem_singleton.mp hh)

theorem sealSession_endCount (env : Env) (now : Nat) (key : String) (ws : WatcherState)
    (target : String) :
    endCount (sealSession env now key ws).2.store target = endCount ws.store target := by
  cases hl : lookupA ws.sessions key with
  | none => rw [sealSession_not_tracked env now key ws hl]
  | some sess =>
    simp only [sealSession, hl]
    rw [endCount_save,
      endCount_foldl_not_end _ _ _
        (detectTimingSignals_not_end (Store.getSessionEvents ws.store sess.sessionId)),
      endCount_foldl_not_end _ _ _ ?hman,
      endCount_foldl_not_end _ _ _ ?hgit]
    case hman =>
      intro e he
      obtain ⟨x, hx, hfx⟩ := List.mem_map.mp he
      rw [← hfx, setSid_isSessionEnd]
      exact detectManualEdits_not_end env sess.cwd sess.files (now - 60000) x hx
    case hgit =>
      intro e he
      obtain ⟨x, hx, hfx⟩ := List.mem_map.mp he
      rw [← hfx, setSid_isSessionEnd]
      exact checkGitSignals_not_end (env.gitLog sess.cwd) sess.sessionId now x hx

theorem sealSession_summariesFor_other (env : Env) (now : Nat) (key : String)
    (ws : WatcherState) (target : String)
    (h : ∀ sess : TrackedSession, lookupA ws.sessions key = some sess →
      sess.sessionId ≠ target) :
    summariesFor (sealSession env now key ws).2.store target = summariesFor ws.store target := by
  cases hl : lookupA ws.sessions key with
  | none => rw [sealSession_not_tracked env now key ws hl]
  | some sess =>
    obtain ⟨sm, hlog, hid, _, _⟩ := sealSession_summaryLog env now key ws sess hl
    unfold summariesFor
    rw [hlog, List.filter_append]
    have hf : (sm.id == target) = false := by
      rw [hid]
      exact beq_eq_false_iff_ne.mpr (h sess hl)
    simp [hf]

theorem sealSession_summariesFor_self (env : Env) (now : Nat) (key : String)
    (ws : WatcherState) (sess : TrackedSession)
    (h : lookupA ws.sessions key = some sess) :
    ∃ sm : SessionSummary,
      summariesFor (sealSession env now key ws).2.store sess.sessionId =
        summariesFor ws.store sess.sessionId ++ [sm] ∧
      sm.startedAt = sess.startTime ∧ sm.endedAt = now := by
  obtain ⟨sm, hlog, hid, h1, h2⟩ := sealSession_summaryLog env now key ws sess h
  refine ⟨sm, ?_, h1, h2⟩
  unfold summariesFor
  rw [hlog, List.filter_append]
  have hf : (sm.id == sess.sessionId) = true := by
    rw [hid]
    exact beq_self_eq_true _
  simp [hf]

theorem sealSession_lastActive (env : Env) (now : Nat) (key : String) (ws : WatcherState) :
    (sealSession env now key ws).2.lastActive = ws.lastActive := by
  cases hl : lookupA ws.sessions key with
  | none => rw [sealSession_not_tracked env now key ws hl]
  | some sess => simp [sealSession, hl]

theorem sealSession_sessions_sub (env : Env) (now : Nat) (key : String) (ws : WatcherState) :
    ∀ kv ∈ (sealSession env now key ws).2.sessions, kv ∈ ws.sessions := by
  intro kv hkv
  cases hl : lookupA ws.sessions key with
  | none =>
    rw [sealSession_not_tracked env now key ws hl] at hkv
    exact hkv
  | some sess =>
    rw [sealSession_sessions_delA env now key ws sess hl] at hkv
    exact (mem_delA ws.sessions key kv hkv).1

theorem sealSession_lookup_other (env : Env) (now : Nat) (key : String) (ws : WatcherState)
    (k2 : String) (h : k2 ≠ key) :
    lookupA (sealSession env now key ws).2.sessions k2 = lookupA ws.sessions k2 := by
  cases hl : lookupA ws.sessions key with
  | none => rw [sealSession_not_tracked env now key ws hl]
  | some sess =>
    rw [sealSession_sessions_delA env now key ws sess hl]
    exact lookupA_delA_other ws.sessions key k2 h

/-- Invariant threaded through a poll tick for claim C2: the target key still
holds the original tracked session and is marked active, the target
session's `session_end` count and summary writes agree with the reference
store `st0`, and every other tracked entry carries a different session id. -/
def C2Inv (key : String) (sess : TrackedSession) (st0 : StoreState)
    (ws0 : WatcherState) : Prop :=
  lookupA ws0.sessions key = some sess ∧
  lookupA ws0.lastActive key = some true ∧
  endCount ws0.store sess.sessionId = endCount st0 sess.sessionId ∧
  summariesFor ws0.store sess.sessionId = summariesFor st0 sess.sessionId ∧
  ∀ kv ∈ ws0.sessions, kv.1 ≠ key → kv.2.sessionId ≠ sess.sessionId

theorem C2Inv_appendStore (key : String) (sess : TrackedSession) (st0 : StoreState)
    (ws0 : WatcherState) (e : AdapterEvent)
    (h : e.isSessionEnd = false ∨ e.sid ≠ sess.sessionId)
    (hinv : C2Inv key sess st0 ws0) :
    C2Inv key sess st0 { ws0 with store := Store.appendEvent ws0.store e } := by
  obtain ⟨h1, h2, h3, h4, h5⟩ := hinv
  refine ⟨h1, h2, ?_, ?_, h5⟩
  · cases h with
    | inl hh => rw [endCount_append_not_end _ _ _ hh]; exact h3
    | inr hh => rw [endCount_append_other _ _ _ hh]; exact h3
  · rw [summariesFor_append]
    exact h4

theorem C2Inv_sealOther (env : Env) (now : Nat) (key : String) (sess : TrackedSession)
    (st0 : StoreState) (ws0 : WatcherState) (key2 : String) (hk : key2 ≠ key)
    (hinv : C2Inv key sess st0 ws0) :
    C2Inv key sess st0 (sealSession env now key2 ws0).2 := by
  obtain ⟨h1, h2, h3, h4, h5⟩ := hinv
  refine ⟨?_, ?_, ?_, ?_, ?_⟩
  · rw [sealSession_lookup_other env now key2 ws0 key (fun hh => hk hh.symm)]
    exact h1
  · rw [sealSession_lastActive]
    exact h2
  · rw [sealSession_endCount]
    exact h3
  · rw [sealSession_summariesFor_other env now key2 ws0 sess.sessionId ?hother]
    · exact h4
    case hother =>
      intro s2 hs2
      exact h5 (key2, s2) (lookupA_mem _ _ _ hs2) hk
  · intro kv hkv hne
    exact h5 kv (sealSession_sessions_sub env now key2 ws0 kv hkv) hne

theorem C2Inv_setSessions (key : String) (sess : TrackedSession) (st0 : StoreState)
    (ws0 : WatcherState) (key2 : String) (v : TrackedSession) (hk : key2 ≠ key)
    (hv : v.sessionId ≠ sess.sessionId)
    (hinv : C2Inv key sess st0 ws0) :
    C2Inv key sess st0 { ws0 with sessions := setA ws0.sessions key2 v } := by
  obtain ⟨h1, h2, h3, h4, h5⟩ := hinv
  refine ⟨?_, h2, h3, h4, ?_⟩
  · rw [show ({ ws0 with sessions := setA ws0.sessions key2 v } : WatcherState).sessions =
      setA ws0.sessions key2 v from rfl]
    rw [lookupA_setA_other ws0.sessions key2 key v (fun hh => hk hh.symm)]
    exact h1
  · intro kv hkv hne
    cases mem_setA ws0.sessions key2 v kv hkv with
    | inl hh => exact h5 kv hh hne
    | inr hh =>
      rw [hh]
      exact hv

theorem C2Inv_setLastActive (key : String) (sess : TrackedSession) (st0 : StoreState)
    (ws0 : WatcherState) (key2 : String) (b : Bool) (hk : key2 ≠ key)
    (hinv : C2Inv key sess st0 ws0) :
    C2Inv key sess st0 { ws0 with lastActive := setA ws0.lastActive key2 b } := by
  obtain ⟨h1, h2, h3, h4, h5⟩ := hinv
  refine ⟨h1, ?_, h3, h4, h5⟩
  rw [show ({ ws0 with lastActive := setA ws0.lastActive key2 b } : WatcherState).lastActive =
    setA ws0.lastActive key2 b from rfl]
  rw [lookupA_setA_other ws0.lastActive key2 key b (fun hh => hk hh.symm)]
  exact h2

theorem processActive_inv (env : Env) (now : Nat) (aname : String) (key : String)
    (sess : TrackedSession) (st0 : StoreState) (gs : GlobalSessionInfo)
    (acc : WatcherState × List String)
    (hkey : sessionKey aname gs.cwd ≠ key)
    (hgsid : gs.sessionId ≠ sess.sessionId)
    (hinv : C2Inv key sess st0 acc.1) :
    C2Inv key sess st0 (processActive env now aname acc gs).1 ∧
    (processActive env now aname acc gs).2 = acc.2 ++ [sessionKey aname gs.cwd] := by
  refine ⟨?_, rfl⟩
  by_cases hw : (lookupA acc.1.lastActive (sessionKey aname gs.cwd)).getD false = true
  · cases hex : lookupA acc.1.sessions (sessionKey aname gs.cwd) with
    | none =>
      simp only [processActive, hw, hex, Bool.not_true, Bool.false_eq_true, if_false, if_true]
      exact C2Inv_setLastActive key sess st0 acc.1 (sessionKey aname gs.cwd) true hkey hinv
    | some ex =>
      by_cases hid : (gs.sessionId != ex.sessionId) = true
      · simp only [processActive, hw, hex, hid, Bool.not_true, Bool.false_eq_true, if_false,
          if_true]
        have hW1 : C2Inv key sess st0 { acc.1 with store := Store.appendEvent acc.1.store (AdapterEvent.session_end ex.sessionId now none) } :=
          C2Inv_appendStore key sess st0 acc.1 (AdapterEvent.session_end ex.sessionId now none)
            (Or.inr (hinv.2.2.2.2 (sessionKey aname gs.cwd, ex) (lookupA_mem _ _ _ hex) hkey))
            hinv
        have hW2 : C2Inv key sess st0 (sealSession env now (sessionKey aname gs.cwd) { acc.1 with store := Store.appendEvent acc.1.store (AdapterEvent.session_end ex.sessionId now none) }).2 :=
          C2Inv_sealOther env now key sess st0 { acc.1 with store := Store.appendEvent acc.1.store (AdapterEvent.session_end ex.sessionId now none) } (sessionKey aname gs.cwd) hkey hW1
        have hW3 : C2Inv key sess st0 { (sealSession env now (sessionKey aname gs.cwd) { acc.1 with store := Store.appendEvent acc.1.store (AdapterEvent.session_end ex.sessionId now none) }).2 with sessions := setA (sealSession env now (sessionKey aname gs.cwd) { acc.1 with store := Store.appendEvent acc.1.store (AdapterEvent.session_end ex.sessionId now none) }).2.sessions (sessionKey aname gs.cwd) (newTracked aname gs.sessionId (some gs.sessionPath) now gs.cwd) } :=
          C2Inv_setSessions key sess st0 (sealSession env now (sessionKey aname gs.cwd) { acc.1 with store := Store.appendEvent acc.1.store (AdapterEvent.session_end ex.sessionId now none) }).2 (sessionKey aname gs.cwd) (newTracked aname gs.sessionId (some gs.sessionPath) now gs.cwd) hkey hgsid hW2
        have hW4 : C2Inv key sess st0 { { (sealSession env now (sessionKey aname gs.cwd) { acc.1 with store := Store.appendEvent acc.1.store (AdapterEvent.session_end ex.sessionId now none) }).2 with sessions := setA (sealSession env now (sessionKey aname gs.cwd) { acc.1 with store := Store.appendEvent acc.1.store (AdapterEvent.session_end ex.sessionId now none) }).2.sessions (sessionKey aname gs.cwd) (newTracked aname gs.sessionId (some gs.sessionPath) now gs.cwd) } with store := Store.appendEvent { (sealSession env now (sessionKey aname gs.cwd) { acc.1 with store := Store.appendEvent acc.1.store (AdapterEvent.session_end ex.sessionId now none) }).2 with sessions := setA (sealSession env now (sessionKey aname gs.cwd) { acc.1 with store := Store.appendEvent acc.1.store (AdapterEvent.session_end ex.sessionId now none) }).2.sessions (sessionKey aname gs.cwd) (newTracked aname gs.sessionId (some gs.sessionPath) now gs.cwd) }.store (AdapterEvent.session_start gs.sessionId aname now none) } :=
          C2Inv_appendStore key sess st0 { (sealSession env now (sessionKey aname gs.cwd) { acc.1 with store := Store.appendEvent acc.1.store (AdapterEvent.session_end ex.sessionId now none) }).2 with sessions := setA (sealSession env now (sessionKey aname gs.cwd) { acc.1 with store := Store.appendEvent acc.1.store (AdapterEvent.session_end ex.sessionId now none) }).2.sessions (sessionKey aname gs.cwd) (newTracked aname gs.sessionId (some gs.sessionPath) now gs.cwd) } (AdapterEvent.session_start gs.sessionId aname now none) (Or.inl rfl) hW3
        exact C2Inv_setLastActive key sess st0 { { (sealSession env now (sessionKey aname gs.cwd) { acc.1 with store := Store.appendEvent acc.1.store (AdapterEvent.session_end ex.sessionId now none) }).2 with sessions := setA (sealSession env now (sessionKey aname gs.cwd) { acc.1 with store := Store.appendEvent acc.1.store (AdapterEvent.session_end ex.sessionId now none) }).2.sessions (sessionKey aname gs.cwd) (newTracked aname gs.sessionId (some gs.sessionPath) now gs.cwd) } with store := Store.appendEvent { (sealSession env now (sessionKey aname gs.cwd) { acc.1 with store := Store.appendEvent acc.1.store (AdapterEvent.session_end ex.sessionId now none) }).2 with sessions := setA (sealSession env now (sessionKey aname gs.cwd) { acc.1 with store := Store.appendEvent acc.1.store (AdapterEvent.session_end ex.sessionId now none) }).2.sessions (sessionKey aname gs.cwd) (newTracked aname gs.sessionId (some gs.sessionPath) now gs.cwd) }.store (AdapterEvent.session_start gs.sessionId aname now none) } (sessionKey aname gs.cwd) true hkey hW4
      · have hid2 : (gs.sessionId != ex.sessionId) = false := by
          simpa using hid
        simp only [processActive, hw, hex, hid2, Bool.not_true, Bool.false_eq_true, if_false,
          if_true]
        exact C2Inv_setLastActive key sess st0 acc.1 (sessionKey aname gs.cwd) true hkey hinv
  · have hw2 : (lookupA acc.1.lastActive (sessionKey aname gs.cwd)).getD false = false := by
      simpa using hw
    by_cases hex : (lookupA acc.1.sessions (sessionKey aname gs.cwd)).isSome = true
    · simp only [processActive, hw2, hex, Bool.not_false, Bool.true_eq_false, if_false, if_true]
      have hV2 : C2Inv key sess st0 (sealSession env now (sessionKey aname gs.cwd) acc.1).2 :=
        C2Inv_sealOther env now key sess st0 acc.1 (sessionKey aname gs.cwd) hkey hinv
      have hV3 : C2Inv key sess st0 { (sealSession env now (sessionKey aname gs.cwd) acc.1).2 with sessions := setA (sealSession env now (sessionKey aname gs.cwd) acc.1).2.sessions (sessionKey aname gs.cwd) (newTracked aname gs.sessionId (some gs.sessionPath) now gs.cwd) } :=
        C2Inv_setSessions key sess st0 (sealSession env now (sessionKey aname gs.cwd) acc.1).2 (sessionKey aname gs.cwd) (newTracked aname gs.sessionId (some gs.sessionPath) now gs.cwd) hkey hgsid hV2
      have hV4 : C2Inv key sess st0 { { (sealSession env now (sessionKey aname gs.cwd) acc.1).2 with sessions := setA (sealSession env now (sessionKey aname gs.cwd) acc.1).2.sessions (sessionKey aname gs.cwd) (newTracked aname gs.sessionId (some gs.sessionPath) now gs.cwd) } with store := Store.appendEvent { (sealSession env now (sessionKey aname gs.cwd) acc.1).2 with sessions := setA (sealSession env now (sessionKey aname gs.cwd) acc.1).2.sessions (sessionKey aname gs.cwd) (newTracked aname gs.sessionId (some gs.sessionPath) now gs.cwd) }.store (AdapterEvent.session_start gs.sessionId aname now none) } :=
        C2Inv_appendStore key sess st0 { (sealSession env now (sessionKey aname gs.cwd) acc.1).2 with sessions := setA (sealSession env now (sessionKey aname gs.cwd) acc.1).2.sessions (sessionKey aname gs.cwd) (newTracked aname gs.sessionId (some gs.sessionPath) now gs.cwd) } (AdapterEvent.session_start gs.sessionId aname now none) (Or.inl rfl) hV3
      exact C2Inv_setLastActive key sess st0 { { (sealSession env now (sessionKey aname gs.cwd) acc.1).2 with sessions := setA (sealSession env now (sessionKey aname gs.cwd) acc.1).2.sessions (sessionKey aname gs.cwd) (newTracked aname gs.sessionId (some gs.sessionPath) now gs.cwd) } with store := Store.appendEvent { (sealSession env now (sessionKey aname gs.cwd) acc.1).2 with sessions := setA (sealSession env now (sessionKey aname gs.cwd) acc.1).2.sessions (sessionKey aname gs.cwd) (newTracked aname gs.sessionId (some gs.sessionPath) now gs.cwd) }.store (AdapterEvent.session_start gs.sessionId aname now none) } (sessionKey aname gs.cwd) true hkey hV4
    · have hex2 : (lookupA acc.1.sessions (sessionKey aname gs.cwd)).isSome = false := by
        simpa using hex
      simp only [processActive, hw2, hex2, Bool.not_false, Bool.true_eq_false,
        Bool.false_eq_true, if_false, if_true]
      have hU3 : C2Inv key sess st0 { acc.1 with sessions := setA acc.1.sessions (sessionKey aname gs.cwd) (newTracked aname gs.sessionId (some gs.sessionPath) now gs.cwd) } :=
        C2Inv_setSessions key sess st0 acc.1 (sessionKey aname gs.cwd) (newTracked aname gs.sessionId (some gs.sessionPath) now gs.cwd) hkey hgsid hinv
      have hU4 : C2Inv key sess st0 { { acc.1 with sessions := setA acc.1.sessions (sessionKey aname gs.cwd) (newTracked aname gs.sessionId (some gs.sessionPath) now gs.cwd) } with store := Store.appendEvent { acc.1 with sessions := setA acc.1.sessions (sessionKey aname gs.cwd) (newTracked aname gs.sessionId (some gs.sessionPath) now gs.cwd) }.store (AdapterEvent.session_start gs.sessionId aname now none) } :=
        C2Inv_appendStore key sess st0 { acc.1 with sessions := setA acc.1.sessions (sessionKey aname gs.cwd) (newTracked aname gs.sessionId (some gs.sessionPath) now gs.cwd) } (AdapterEvent.session_start gs.sessionId aname now none) (Or.inl rfl) hU3
      exact C2Inv_setLastActive key sess st0 { { acc.1 with sessions := setA acc.1.sessions (sessionKey aname gs.cwd) (newTracked aname gs.sessionId (some gs.sessionPath) now gs.cwd) } with store := Store.appendEvent { acc.1 with sessions := setA acc.1.sessions (sessionKey aname gs.cwd) (newTracked aname gs.sessionId (some gs.sessionPath) now gs.cwd) }.store (AdapterEvent.session_start gs.sessionId aname now none) } (sessionKey aname gs.cwd) true hkey hU4

theorem foldl_processActive_inv (env : Env) (now : Nat) (aname key : String)
    (sess : TrackedSession) (st0 : StoreState) :
    ∀ (l : List GlobalSessionInfo) (acc : WatcherState × List String),
      (∀ gs ∈ l, sessionKey aname gs.cwd ≠ key ∧ gs.sessionId ≠ sess.sessionId) →
      C2Inv key sess st0 acc.1 → key ∉ acc.2 →
      C2Inv key sess st0 (l.foldl (processActive env now aname) acc).1 ∧
      key ∉ (l.foldl (processActive env now aname) acc).2 := by
  intro l
  induction l with
  | nil =>
    intro acc h hinv hnk
    exact ⟨hinv, hnk⟩
  | cons gs tl ih =>
    intro acc h hinv hnk
    rw [List.foldl_cons]
    obtain ⟨hpa, hkeys⟩ := processActive_inv env now aname key sess st0 gs acc
      (h gs (List.mem_cons_self _ _)).1 (h gs (List.mem_cons_self _ _)).2 hinv
    refine ih _ (fun g hg => h g (List.mem_cons_of_mem _ hg)) hpa ?_
    rw [hkeys]
    intro hmem
    rw [List.mem_append] at hmem
    cases hmem with
    | inl hh => exact hnk hh
    | inr hh => exact (h gs (List.mem_cons_self _ _)).1 (List.mem_singleton.mp hh).symm

theorem processOffline_other (env : Env) (now : Nat) (aname : String)
    (activeKeys : List String) (key : String) (sess : TrackedSession) (st0 : StoreState)
    (ws0 : WatcherState) (entry : String × TrackedSession)
    (hne : entry.1 ≠ key)
    (hid : entry.2.sessionId ≠ sess.sessionId)
    (hinv : C2Inv key sess st0 ws0) :
    C2Inv key sess st0 (processOffline env now aname activeKeys ws0 entry) := by
  by_cases hc1 : (entry.2.agent != aname) = true
  · simp only [processOffline, hc1, if_true]
    exact hinv
  · have hc1f : (entry.2.agent != aname) = false := by simpa using hc1
    by_cases hc2 : (activeKeys.contains entry.1) = true
    · simp only [processOffline, hc1f, hc2, Bool.false_eq_true, if_false, if_true]
      exact hinv
    · have hc2f : (activeKeys.contains entry.1) = false := by simpa using hc2
      by_cases hc3 : (!(lookupA ws0.lastActive entry.1).getD false) = true
      · simp only [processOffline, hc1f, hc2f, hc3, Bool.false_eq_true, if_false, if_true]
        exact hinv
      · have hc3f : (!(lookupA ws0.lastActive entry.1).getD false) = false := by simpa using hc3
        simp only [processOffline, hc1f, hc2f, hc3f, Bool.false_eq_true, if_false]
        have hB1 : C2Inv key sess st0 { ws0 with store := Store.appendEvent ws0.store (AdapterEvent.session_end entry.2.sessionId now none) } :=
          C2Inv_appendStore key sess st0 ws0
            (AdapterEvent.session_end entry.2.sessionId now none) (Or.inr hid) hinv
        have hB2 : C2Inv key sess st0 (sealSession env now entry.1 { ws0 with store := Store.appendEvent ws0.store (AdapterEvent.session_end entry.2.sessionId now none) }).2 :=
          C2Inv_sealOther env now key sess st0 { ws0 with store := Store.appendEvent ws0.store (AdapterEvent.session_end entry.2.sessionId now none) } entry.1 hne hB1
        exact C2Inv_setLastActive key sess st0 (sealSession env now entry.1 { ws0 with store := Store.appendEvent ws0.store (AdapterEvent.session_end entry.2.sessionId now none) }).2 entry.1 false hne hB2

theorem foldl_processOffline_other (env : Env) (now : Nat) (aname : String)
    (activeKeys : List String) (key : String) (sess : TrackedSession) (st0 : StoreState) :
    ∀ (l : List (String × TrackedSession)) (ws0 : WatcherState),
      (∀ kv ∈ l, kv.1 ≠ key ∧ kv.2.sessionId ≠ sess.sessionId) →
      C2Inv key sess st0 ws0 →
      C2Inv key sess st0 (l.foldl (processOffline env now aname activeKeys) ws0) := by
  intro l
  induction l with
  | nil =>
    intro ws0 h hinv
    exact hinv
  | cons e tl ih =>
    intro ws0 h hinv
    rw [List.foldl_cons]
    exact ih _ (fun g hg => h g (List.mem_cons_of_mem _ hg))
      (processOffline_other env now aname activeKeys key sess st0 ws0 e
        (h e (List.mem_cons_self _ _)).1 (h e (List.mem_cons_self _ _)).2 hinv)

theorem lookupA_split {α : Type} (m : List (String × α)) (k : String) (v : α)
    (h : lookupA m k = some v) :
    ∃ l1 l2, m = l1 ++ (k, v) :: l2 ∧ ∀ kv ∈ l1, kv.1 ≠ k := by
  rw [lookupA] at h
  cases hf : m.find? (fun kv => kv.1 == k) with
  | none =>
    rw [hf] at h
    cases h
  | some kv =>
    rw [hf] at h
    have hv : kv.2 = v := by simpa using h
    have h1 := List.find?_some (p := fun kv : String × α => kv.1 == k) hf
    have hk : kv.1 = k := by simpa using h1
    have hkv : kv = (k, v) := Prod.ext hk hv
    subst hkv
    obtain ⟨hp, as, bs, heq, hall⟩ := (List.find?_eq_some).mp hf
    refine ⟨as, bs, heq, ?_⟩
    intro kv2 hkv2 hEq
    have hh := hall kv2 hkv2
    rw [hEq] at hh
    simp at hh

/-- Post-seal facts carried through the rest of a poll tick for claim C2:
the target key is marked inactive, the target session's end count and
summary writes hold their post-seal values, and no tracked entry names the
target session id any more. -/
def C2Done (key target : String) (eDone : Nat) (sDone : List SessionSummary)
    (ws0 : WatcherState) : Prop :=
  lookupA ws0.lastActive key = some false ∧
  endCount ws0.store target = eDone ∧
  summariesFor ws0.store target = sDone ∧
  ∀ kv ∈ ws0.sessions, kv.2.sessionId ≠ target

theorem C2Done_appendStore (key target : String) (eDone : Nat)
    (sDone : List SessionSummary) (ws0 : WatcherState) (e : AdapterEvent)
    (h : e.isSessionEnd = false ∨ e.sid ≠ target)
    (hd : C2Done key target eDone sDone ws0) :
    C2Done key target eDone sDone { ws0 with store := Store.appendEvent ws0.store e } := by
  obtain ⟨h1, h2, h3, h4⟩ := hd
  refine ⟨h1, ?_, ?_, h4⟩
  · cases h with
    | inl hh => rw [endCount_append_not_end _ _ _ hh]; exact h2
    | inr hh => rw [endCount_append_other _ _ _ hh]; exact h2
  · rw [summariesFor_append]
    exact h3

theorem C2Done_sealOther (env : Env) (now : Nat) (key target : String) (eDone : Nat)
    (sDone : List SessionSummary) (ws0 : WatcherState) (key2 : String)
    (hd : C2Done key target eDone sDone ws0) :
    C2Done key target eDone sDone (sealSession env now key2 ws0).2 := by
  obtain ⟨h1, h2, h3, h4⟩ := hd
  refine ⟨?_, ?_, ?_, ?_⟩
  · rw [sealSession_lastActive]
    exact h1
  · rw [sealSession_endCount]
    exact h2
  · rw [sealSession_summariesFor_other env now key2 ws0 target ?hother]
    · exact h3
    case hother =>
      intro s2 hs2
      exact h4 (key2, s2) (lookupA_mem _ _ _ hs2)
  · intro kv hkv
    exact h4 kv (sealSession_sessions_sub env now key2 ws0 kv hkv)

theorem C2Done_setLastActive (key target : String) (eDone : Nat)
    (sDone : List SessionSummary) (ws0 : WatcherState) (key2 : String) (b : Bool)
    (hk : key2 ≠ key)
    (hd : C2Done key target eDone sDone ws0) :
    C2Done key target eDone sDone
      { ws0 with lastActive := setA ws0.lastActive key2 b } := by
  obtain ⟨h1, h2, h3, h4⟩ := hd
  refine ⟨?_, h2, h3, h4⟩
  rw [show ({ ws0 with lastActive := setA ws0.lastActive key2 b } : WatcherState).lastActive =
    setA ws0.lastActive key2 b from rfl]
  rw [lookupA_setA_other ws0.lastActive key2 key b (fun hh => hk hh.symm)]
  exact h1

theorem processOffline_target (env : Env) (now : Nat) (aname : String)
    (activeKeys : List String) (key : String) (sess : TrackedSession) (st0 : StoreState)
    (ws0 : WatcherState)
    (hagent : sess.agent = aname)
    (hnk : key ∉ activeKeys)
    (hinv : C2Inv key sess st0 ws0) :
    ∃ sm : SessionSummary,
      C2Done key sess.sessionId (endCount st0 sess.sessionId + 1)
        (summariesFor st0 sess.sessionId ++ [sm])
        (processOffline env now aname activeKeys ws0 (key, sess)) ∧
      sm.startedAt = sess.startTime ∧ sm.endedAt = now := by
  obtain ⟨hs, hla, hce, hcs, hent⟩ := hinv
  have hc1 : (((key, sess) : String × TrackedSession).2.agent != aname) = false := by
    simp [hagent]
  have hc2 : (activeKeys.contains key) = false := by
    rw [Bool.eq_false_iff]
    intro hc
    exact hnk (by simpa using hc)
  have hc3 : (!(lookupA ws0.lastActive key).getD false) = false := by
    rw [hla]
    rfl
  simp only [processOffline, hc1, hc2, hc3, Bool.false_eq_true, if_false]
  have hT1s : lookupA ({ ws0 with store := Store.appendEvent ws0.store (AdapterEvent.session_end sess.sessionId now none) } : WatcherState).sessions key = some sess := hs
  obtain ⟨sm, hsm, hsm1, hsm2⟩ := sealSession_summariesFor_self env now key { ws0 with store := Store.appendEvent ws0.store (AdapterEvent.session_end sess.sessionId now none) } sess hT1s
  refine ⟨sm, ⟨?_, ?_, ?_, ?_⟩, hsm1, hsm2⟩
  · rw [show ({ (sealSession env now key { ws0 with store := Store.appendEvent ws0.store (AdapterEvent.session_end sess.sessionId now none) }).2 with lastActive := setA ((sealSession env now key { ws0 with store := Store.appendEvent ws0.store (AdapterEvent.session_end sess.sessionId now none) }).2 : WatcherState).lastActive key false } : WatcherState).lastActive = setA ((sealSession env now key { ws0 with store := Store.appendEvent ws0.store (AdapterEvent.session_end sess.sessionId now none) }).2 : WatcherState).lastActive key false from rfl]
    exact lookupA_setA_self _ _ _
  · rw [show ({ (sealSession env now key { ws0 with store := Store.appendEvent ws0.store (AdapterEvent.session_end sess.sessionId now none) }).2 with lastActive := setA ((sealSession env now key { ws0 with store := Store.appendEvent ws0.store (AdapterEvent.session_end sess.sessionId now none) }).2 : WatcherState).lastActive key false } : WatcherState).store = ((sealSession env now key { ws0 with store := Store.appendEvent ws0.store (AdapterEvent.session_end sess.sessionId now none) }).2 : WatcherState).store from rfl]
    rw [sealSession_endCount]
    rw [show ({ ws0 with store := Store.appendEvent ws0.store (AdapterEvent.session_end sess.sessionId now none) } : WatcherState).store = Store.appendEvent ws0.store (AdapterEvent.session_end sess.sessionId now none) from rfl]
    rw [endCount_append_end_self ws0.store
      (AdapterEvent.session_end sess.sessionId now none) sess.sessionId rfl rfl]
    rw [hce]
  · rw [show ({ (sealSession env now key { ws0 with store := Store.appendEvent ws0.store (AdapterEvent.session_end sess.sessionId now none) }).2 with lastActive := setA ((sealSession env now key { ws0 with store := Store.appendEvent ws0.store (AdapterEvent.session_end sess.sessionId now none) }).2 : WatcherState).lastActive key false } : WatcherState).store = ((sealSession env now key { ws0 with store := Store.appendEvent ws0.store (AdapterEvent.session_end sess.sessionId now none) }).2 : WatcherState).store from rfl]
    rw [hsm]
    rw [show summariesFor ({ ws0 with store := Store.appendEvent ws0.store (AdapterEvent.session_end sess.sessionId now none) } : WatcherState).store sess.sessionId = summariesFor ws0.store sess.sessionId from rfl]
    rw [hcs]
  · intro kv hkv
    rw [show ({ (sealSession env now key { ws0 with store := Store.appendEvent ws0.store (AdapterEvent.session_end sess.sessionId now none) }).2 with lastActive := setA ((sealSession env now key { ws0 with store := Store.appendEvent ws0.store (AdapterEvent.session_end sess.sessionId now none) }).2 : WatcherState).lastActive key false } : WatcherState).sessions = ((sealSession env now key { ws0 with store := Store.appendEvent ws0.store (AdapterEvent.session_end sess.sessionId now none) }).2 : WatcherState).sessions from rfl] at hkv
    rw [sealSession_sessions_delA env now key { ws0 with store := Store.appendEvent ws0.store (AdapterEvent.session_end sess.sessionId now none) } sess hT1s] at hkv
    obtain ⟨hmem, hne⟩ := mem_delA _ key kv hkv
    exact hent kv hmem hne

theorem processOffline_done (env : Env) (now : Nat) (aname : String)
    (activeKeys : List String) (key target : String) (eDone : Nat)
    (sDone : List SessionSummary) (ws0 : WatcherState)
    (entry : String × TrackedSession)
    (hentry : entry.1 ≠ key → entry.2.sessionId ≠ target)
    (hd : C2Done key target eDone sDone ws0) :
    C2Done key target eDone sDone
      (processOffline env now aname activeKeys ws0 entry) := by
  by_cases hc1 : (entry.2.agent != aname) = true
  · simp only [processOffline, hc1, if_true]
    exact hd
  · have hc1f : (entry.2.agent != aname) = false := by simpa using hc1
    by_cases hc2 : (activeKeys.contains entry.1) = true
    · simp only [processOffline, hc1f, hc2, Bool.false_eq_true, if_false, if_true]
      exact hd
    · have hc2f : (activeKeys.contains entry.1) = false := by simpa using hc2
      by_cases hc3 : (!(lookupA ws0.lastActive entry.1).getD false) = true
      · simp only [processOffline, hc1f, hc2f, hc3, Bool.false_eq_true, if_false, if_true]
        exact hd
      · have hc3f : (!(lookupA ws0.lastActive entry.1).getD false) = false := by simpa using hc3
        simp only [processOffline, hc1f, hc2f, hc3f, Bool.false_eq_true, if_false]
        have hek : entry.1 ≠ key := by
          intro he
          rw [he, hd.1] at hc3f
          simp at hc3f
        have hid := hentry hek
        have hB1 : C2Done key target eDone sDone { ws0 with store := Store.appendEvent ws0.store (AdapterEvent.session_end entry.2.sessionId now none) } :=
          C2Done_appendStore key target eDone sDone ws0
            (AdapterEvent.session_end entry.2.sessionId now none) (Or.inr hid) hd
        have hB2 : C2Done key target eDone sDone (sealSession env now entry.1 { ws0 with store := Store.appendEvent ws0.store (AdapterEvent.session_end entry.2.sessionId now none) }).2 :=
          C2Done_sealOther env now key target eDone sDone { ws0 with store := Store.appendEvent ws0.store (AdapterEvent.session_end entry.2.sessionId now none) } entry.1 hB1
        exact C2Done_setLastActive key target eDone sDone (sealSession env now entry.1 { ws0 with store := Store.appendEvent ws0.store (AdapterEvent.session_end entry.2.sessionId now none) }).2 entry.1 false hek hB2

theorem foldl_processOffline_done (env : Env) (now : Nat) (aname : String)
    (activeKeys : List String) (key target : String) (eDone : Nat)
    (sDone : List SessionSummary) :
    ∀ (l : List (String × TrackedSession)) (ws0 : WatcherState),
      (∀ kv ∈ l, kv.1 ≠ key → kv.2.sessionId ≠ target) →
      C2Done key target eDone sDone ws0 →
      C2Done key target eDone sDone
        (l.foldl (processOffline env now aname activeKeys) ws0) := by
  intro l
  induction l with
  | nil =>
    intro ws0 h hd
    exact hd
  | cons e tl ih =>
    intro ws0 h hd
    rw [List.foldl_cons]
    exact ih _ (fun g hg => h g (List.mem_cons_of_mem _ hg))
      (processOffline_done env now aname activeKeys key target eDone sDone ws0 e
        (h e (List.mem_cons_self _ _)) hd)

theorem processEvent_store (aname : String) (fresh : Nat → String)
    (acc : WatcherState × Nat) (pe : String × AdapterEvent)
    (hpe : pe.2.isSessionEnd = false) (target : String) :
    endCount (processEvent aname fresh acc pe).1.store target =
      endCount acc.1.store target ∧
    summariesFor (processEvent aname fresh acc pe).1.store target =
      summariesFor acc.1.store target := by
  cases hl : lookupA acc.1.sessions (sessionKey aname pe.1) with
  | some session =>
    simp only [processEvent, hl]
    constructor
    · rw [endCount_append_not_end]
      rw [setSid_isSessionEnd]
      exact hpe
    · rw [summariesFor_append]
  | none =>
    simp only [processEvent, hl]
    constructor
    · rw [endCount_append_not_end]
      rw [setSid_isSessionEnd]
      exact hpe
    · rw [summariesFor_append]

theorem foldl_processEvent_store (aname : String) (fresh : Nat → String) (target : String) :
    ∀ (l : List (String × AdapterEvent)) (acc : WatcherState × Nat),
      (∀ pe ∈ l, pe.2.isSessionEnd = false) →
      endCount ((l.foldl (processEvent aname fresh) acc)).1.store target =
        endCount acc.1.store target ∧
      summariesFor ((l.foldl (processEvent aname fresh) acc)).1.store target =
        summariesFor acc.1.store target := by
  intro l
  induction l with
  | nil =>
    intro acc h
    exact ⟨rfl, rfl⟩
  | cons pe tl ih =>
    intro acc h
    rw [List.foldl_cons]
    obtain ⟨he, hs⟩ := processEvent_store aname fresh acc pe (h pe (List.mem_cons_self _ _)) target
    obtain ⟨ihe, ihs⟩ := ih _ (fun g hg => h g (List.mem_cons_of_mem _ hg))
    exact ⟨ihe.trans he, ihs.trans hs⟩

theorem processEvent_summaries (aname : String) (fresh : Nat → String)
    (acc : WatcherState × Nat) (pe : String × AdapterEvent) (target : String) :
    summariesFor (processEvent aname fresh acc pe).1.store target =
      summariesFor acc.1.store target := by
  cases hl : lookupA acc.1.sessions (sessionKey aname pe.1) with
  | some session =>
    simp only [processEvent, hl]
    rw [summariesFor_append]
  | none =>
    simp only [processEvent, hl]
    rw [summariesFor_append]

theorem foldl_processEvent_summaries (aname : String) (fresh : Nat → String)
    (target : String) :
    ∀ (l : List (String × AdapterEvent)) (acc : WatcherState × Nat),
      summariesFor ((l.foldl (processEvent aname fresh) acc)).1.store target =
        summariesFor acc.1.store target := by
  intro l
  induction l with
  | nil =>
    intro acc
    rfl
  | cons pe tl ih =>
    intro acc
    rw [List.foldl_cons]
    exact (ih _).trans (processEvent_summaries aname fresh acc pe target)

/-- State used by the C2 counterexample: one active tracked codex session
for `codex:/p` with session id `sid`, started at time 0, empty store. -/
def wsC2x : WatcherState :=
  { sessions := [("codex:/p", newTracked "codex" "sid" none 0 "/p")]
    lastActive := [("codex:/p", true)]
    store := ⟨fun _ => [], []⟩ }

/-- C2 counterexample: the codex adapter emits a `session_end` event for
every `task_complete` log line (`adapter/codex.ts:318-323`), so a tick can
poll the vanished session's own `task_complete` while driving the offline
transition. On the concrete state — `codex:/p` tracked and active at the
previous tick, reported inactive now, and the tick's polled events holding
the session's `session_end` — the offline sweep appends one `session_end`,
the event-routing loop auto-recreates the session under the same id and
appends the polled `session_end` as a second one: two `session_end` events
land in the session's file, not exactly one as the claim states (the
summary, by contrast, is still written exactly once). -/
theorem C2_counterexample :
    lookupA wsC2x.sessions "codex:/p" = some (newTracked "codex" "sid" none 0 "/p") ∧
    lookupA wsC2x.lastActive "codex:/p" = some true ∧
    endCount
        (pollTick envEmpty 5 "codex" (fun _ => "u") 0 []
          [("/p", AdapterEvent.session_end "sid" 4 none)] wsC2x).1.store "sid" =
      endCount wsC2x.store "sid" + 2 ∧
    (summariesFor
        (pollTick envEmpty 5 "codex" (fun _ => "u") 0 []
          [("/p", AdapterEvent.session_end "sid" 4 none)] wsC2x).1.store "sid").length = 1 ∧
    endCount wsC2x.store "sid" + 2 ≠ endCount wsC2x.store "sid" + 1 := by
  refine ⟨by decide, by decide, by decide, by decide, by decide⟩

/-- C2 as amended. When a tracked key that was active at the previous tick
is no longer reported active by its adapter, one poll tick persists exactly
one `SessionSummary` for that session, with `endedAt` (the tick's clock) at
least `startedAt` (the tracked start time); and it appends exactly one
`session_end` event to that session's event file provided the tick's
freshly polled events contain no `session_end`-typed event — the codex
adapter emits one per `task_complete` log line, and such an event polled in
the same tick is routed into a freshly auto-created tracked session and
stored as an additional `session_end` (see the counterexample). Remaining
hypotheses: the key is tracked under the adapter's name and was active; no
currently-reported active session has this key or reuses this session id;
other tracked entries do not reuse the id; the watcher clock is monotone. -/
theorem C2_amended_offline_seal (env : Env) (now : Nat) (aname : String)
    (fresh : Nat → String) (nextId : Nat) (activeSessions : List GlobalSessionInfo)
    (globalEvents : List (String × AdapterEvent)) (ws : WatcherState)
    (key : String) (sess : TrackedSession)
    (hsess : lookupA ws.sessions key = some sess)
    (hagent : sess.agent = aname)
    (hwas : lookupA ws.lastActive key = some true)
    (hnot : ∀ gs ∈ activeSessions, sessionKey aname gs.cwd ≠ key)
    (hgsid : ∀ gs ∈ activeSessions, gs.sessionId ≠ sess.sessionId)
    (hoth : ∀ kv ∈ ws.sessions, kv.1 ≠ key → kv.2.sessionId ≠ sess.sessionId)
    (hstart : sess.startTime ≤ now) :
    (∃ sm : SessionSummary,
      summariesFor
          (pollTick env now aname fresh nextId activeSessions globalEvents ws).1.store
          sess.sessionId =
        summariesFor ws.store sess.sessionId ++ [sm] ∧
      sm.startedAt = sess.startTime ∧ sm.endedAt = now ∧ sm.startedAt ≤ sm.endedAt) ∧
    ((∀ pe ∈ globalEvents, pe.2.isSessionEnd = false) →
      endCount (pollTick env now aname fresh nextId activeSessions globalEvents ws).1.store
          sess.sessionId =
        endCount ws.store sess.sessionId + 1) := by
  have hinv0 : C2Inv key sess ws.store ws := ⟨hsess, hwas, rfl, rfl, hoth⟩
  obtain ⟨hinv1, hkeys1⟩ := foldl_processActive_inv env now aname key sess ws.store
    activeSessions (ws, []) (fun gs hg => ⟨hnot gs hg, hgsid gs hg⟩) hinv0 (by simp)
  obtain ⟨l1, l2, hsplit, hl1⟩ := lookupA_split _ key sess hinv1.1
  have hA : C2Inv key sess ws.store (l1.foldl (processOffline env now aname (activeSessions.foldl (processActive env now aname) (ws, [])).2) (activeSessions.foldl (processActive env now aname) (ws, [])).1) :=
    foldl_processOffline_other env now aname (activeSessions.foldl (processActive env now aname) (ws, [])).2 key sess ws.store l1 (activeSessions.foldl (processActive env now aname) (ws, [])).1
      (fun kv hkv => ⟨hl1 kv hkv,
        hinv1.2.2.2.2 kv (by rw [hsplit]; exact List.mem_append_left _ hkv) (hl1 kv hkv)⟩)
      hinv1
  obtain ⟨sm, hdone, hsm1, hsm2⟩ := processOffline_target env now aname (activeSessions.foldl (processActive env now aname) (ws, [])).2 key sess
    ws.store (l1.foldl (processOffline env now aname (activeSessions.foldl (processActive env now aname) (ws, [])).2) (activeSessions.foldl (processActive env now aname) (ws, [])).1) hagent hkeys1 hA
  have hB := foldl_processOffline_done env now aname (activeSessions.foldl (processActive env now aname) (ws, [])).2 key sess.sessionId
    (endCount ws.store sess.sessionId + 1)
    (summariesFor ws.store sess.sessionId ++ [sm]) l2 (processOffline env now aname (activeSessions.foldl (processActive env now aname) (ws, [])).2 (l1.foldl (processOffline env now aname (activeSessions.foldl (processActive env now aname) (ws, [])).2) (activeSessions.foldl (processActive env now aname) (ws, [])).1) (key, sess))
    (fun kv hkv hne => hinv1.2.2.2.2 kv
      (by rw [hsplit]; exact List.mem_append_right _ (List.mem_cons_of_mem _ hkv)) hne)
    hdone
  have hEs := foldl_processEvent_summaries aname fresh sess.sessionId globalEvents
    ((l2.foldl (processOffline env now aname (activeSessions.foldl (processActive env now aname) (ws, [])).2) (processOffline env now aname (activeSessions.foldl (processActive env now aname) (ws, [])).2 (l1.foldl (processOffline env now aname (activeSessions.foldl (processActive env now aname) (ws, [])).2) (activeSessions.foldl (processActive env now aname) (ws, [])).1) (key, sess))), nextId)
  simp only [pollTick]
  rw [hsplit, List.foldl_append, List.foldl_cons]
  constructor
  · refine ⟨sm, ?_, hsm1, hsm2, ?_⟩
    · rw [hEs]
      exact hB.2.2.1
    · rw [hsm1, hsm2]
      exact hstart
  · intro hev
    obtain ⟨hEe, _⟩ := foldl_processEvent_store aname fresh sess.sessionId globalEvents
      ((l2.foldl (processOffline env now aname (activeSessions.foldl (processActive env now aname) (ws, [])).2) (processOffline env now aname (activeSessions.foldl (processActive env now aname) (ws, [])).2 (l1.foldl (processOffline env now aname (activeSessions.foldl (processActive env now aname) (ws, [])).2) (activeSessions.foldl (processActive env now aname) (ws, [])).1) (key, sess))), nextId) hev
    rw [hEe]
    exact hB.2.1

/-- State used by the C2 amended witness: one active tracked claude session
for `claude:/p` started at time 0, with an empty store. -/
def wsC2 : WatcherState :=
  { sessions := [("claude:/p", newTracked "claude" "sid" none 0 "/p")]
    lastActive := [("claude:/p", true)]
    store := ⟨fun _ => [], []⟩ }

/-- C2 amended witness: a tick at time 5 reporting no active sessions and
polling no events seals the tracked session, writing one summary with
`endedAt = 5 ≥ startedAt = 0` and appending one `session_end`. -/
theorem C2_amended_offline_seal_witness :
    (∃ sm : SessionSummary,
      summariesFor (pollTick envEmpty 5 "claude" (fun _ => "u") 0 [] [] wsC2).1.store "sid" =
        summariesFor wsC2.store "sid" ++ [sm] ∧
      sm.startedAt = 0 ∧ sm.endedAt = 5 ∧ sm.startedAt ≤ sm.endedAt) ∧
    endCount (pollTick envEmpty 5 "claude" (fun _ => "u") 0 [] [] wsC2).1.store "sid" =
      endCount wsC2.store "sid" + 1 := by
  have h := C2_amended_offline_seal envEmpty 5 "claude" (fun _ => "u") 0 [] [] wsC2
    "claude:/p" (newTracked "claude" "sid" none 0 "/p")
    (by decide) rfl (by decide) (by simp) (by simp) (by decide) (by decide)
  exact ⟨h.1, h.2 (by simp)⟩

end SLAgent
